import Mathlib

/-!
# Verification of the arctic-bot broadcast engine

A shallow embedding of the broadcast delivery and scheduling engine of the
arctic-bot repository, together with theorems settling the specification
claims about it.

Conventions of the embedding:
* Timestamps are natural numbers counting seconds (UTC, seconds since an
  arbitrary epoch).  `datetime.hour` becomes `t / 3600 % 24`.
* Mongo documents become Lean structures; a collection becomes a `List` of
  documents; `find(query)` becomes `List.filter`, `find_one`/keyed updates
  become `List.find?` / a keyed `map`.
* Python `dict` filters become association lists `List (String × String)`;
  exact-match Mongo queries and the in-code `user.get(key) != value` checks
  both become a lookup comparison.
* The external messaging platform is an oracle: each recipient document
  carries a scripted `SendOutcome` describing how the platform reacts when a
  message is sent to that recipient (success, rate-limit with a mandated
  wait and a scripted retry result, or one of the error classes that the
  source discriminates by exception type).
* Fractional second delays use `ℚ` (0.4 becomes 2/5 and so on).
-/

namespace ArcticBot

/-! ## Batch tier selection

From `src/bot/utils/scheduler.py` lines 176-187 (an identical block sits in
`src/bot/services/notifications.py` lines 443-453):

```
batch_size = 25
batch_delay = 3
if total_users > 1000:
    batch_size = 50
    batch_delay = 5
elif total_users > 5000:
    batch_size = 100
    batch_delay = 10
```

Note that the `elif` guard is tested only when `total_users > 1000` is
false, exactly as in Python. -/

/-- Tier selection: `(batch_size, batch_delay)` as a function of the
snapshotted total recipient count. -/
def chooseTier (totalUsers : ℕ) : ℕ × ℕ :=
  if totalUsers > 1000 then (50, 5)
  else if totalUsers > 5000 then (100, 10)
  else (25, 3)

/-! ## Recipients, filters and recipient resolution

From `src/bot/database/users.py` (`get_all_users`, `get_users_by_filter`)
and the resolution prologue of `send_broadcast`
(`src/bot/services/notifications.py` lines 67-79). -/

/-- A Mongo exact-match filter / a Python dict of attribute constraints. -/
abbrev UserFilter := List (String × String)

/-- The classes of reaction of the messaging platform to one send attempt,
mirroring the exception classes discriminated by `send_broadcast`:
success, `RetryAfter` (with the mandated wait and the scripted result of
the single retry), the recipient-unreachable exceptions (`BotBlocked`,
`UserDeactivated`, `ChatNotFound`, `Unauthorized`,
`CantInitiateConversation` — the concrete class name is kept as a string
for the per-kind tally), `TelegramAPIError`, and any other exception. -/
inductive SendOutcome where
  | ok : SendOutcome
  | retryAfter (timeout : ℚ) (retrySucceeds : Bool) : SendOutcome
  | unreachable (kind : String) : SendOutcome
  | apiError : SendOutcome
  | otherError (kind : String) : SendOutcome
deriving DecidableEq, Repr

/-- A user document of the `users` collection.  `userId` is the `user_id`
field (`none` when the field is missing or `None`); `attrs` are the other
string attributes (`status`, `source`, `city`, ...) used for filtering;
`outcome` is the platform oracle for this recipient. -/
structure PyUser where
  userId : Option Int
  attrs : List (String × String)
  outcome : SendOutcome
deriving DecidableEq, Repr

/-- `user.get(key)` over the filterable string attributes. -/
def lookupAttr (u : PyUser) (k : String) : Option String :=
  u.attrs.lookup k

/-- Exact-match conjunction: the document satisfies every key/value pair of
the filter.  This is both the Mongo query semantics used by
`get_users_by_filter` and the in-memory `user.get(key) != value` loop of
`generate_users_statistics_excel`. -/
def matchesFilter (f : UserFilter) (u : PyUser) : Bool :=
  f.all fun kv => lookupAttr u kv.1 == some kv.2

/-- `key in dict` for a filter. -/
def hasKey (f : UserFilter) (k : String) : Bool :=
  f.any fun kv => kv.1 == k

/-- `get_users_by_filter(filter_query)` (`src/bot/database/users.py` 157-182):
`collection.find(filter_query)` with no skip/limit. -/
def get_users_by_filter (store : List PyUser) (filterQuery : UserFilter) : List PyUser :=
  store.filter (matchesFilter filterQuery)

/-- `get_all_users(status)` (`src/bot/database/users.py` 119-155): the query
is `{}`, plus `{"status": status}` when a status is given. -/
def get_all_users (store : List PyUser) (status : Option String) : List PyUser :=
  match status with
  | some s => store.filter fun u => lookupAttr u "status" == some s
  | none => store

/-- Python truthiness of the `target_filter` argument: a non-`None`,
non-empty dict. -/
def filterTruthy (targetFilter : Option UserFilter) : Bool :=
  match targetFilter with
  | some f => !f.isEmpty
  | none => false

/-- The combined filter built by `send_broadcast` lines 70-72: a copy of the
target filter with `"status": "active"` added when no status key is
present. -/
def combinedFilter (f : UserFilter) : UserFilter :=
  if hasKey f "status" then f else f ++ [("status", "active")]

/-- Recipient resolution performed by `send_broadcast`
(`src/bot/services/notifications.py` lines 67-79): a truthy filter is
merged with the implicit active-status constraint and evaluated by
`get_users_by_filter`; otherwise `get_all_users(status="active")`. -/
def resolveRecipients (store : List PyUser) (targetFilter : Option UserFilter) :
    List PyUser :=
  if filterTruthy targetFilter then
    get_users_by_filter store (combinedFilter (targetFilter.getD []))
  else
    get_all_users store (some "active")

/-! ## The persisted broadcast record and the batch sender

From `send_broadcast` (`src/bot/services/notifications.py` lines 38-310). -/

/-- Lifecycle status of a broadcast record. -/
inductive BStatus where
  | scheduled : BStatus
  | inProgress : BStatus
  | completed : BStatus
  | error : BStatus
deriving DecidableEq, Repr

/-- A document of the `broadcasts` collection.  `targetFilter = none` models
a stored `None` (or missing) filter, `scheduleTime = none` a record without
a schedule timestamp.  The timestamps `created_at` / `started_at` /
`completed_at` and the media fields play no role in any claim and are
omitted. -/
structure BroadcastDoc where
  id : ℕ
  messageText : String
  targetFilter : Option UserFilter
  scheduleTime : Option ℕ
  status : BStatus
  sentCount : ℕ
  failedCount : ℕ
  totalUsers : ℕ
deriving DecidableEq, Repr

/-- The mutable state of one `send_broadcast` run: the local counters
`sent_count` / `failed_count`, the `errors_by_type` tally, the local
`SAFE_MESSAGE_DELAY` variable, the persisted record this run created
(`none` when `save_to_db` is false or no record exists — the engine writes
counters only through this handle, mirroring the
`if save_to_db and broadcast_id:` guards), plus two observation logs that
have no counterpart in stored state: every `asyncio.sleep` duration issued,
and every chat id passed to a `bot.send_*` call. -/
structure SendState where
  sentCount : ℕ
  failedCount : ℕ
  errorsByType : List (String × ℕ)
  safeMessageDelay : ℚ
  record : Option BroadcastDoc
  sleeps : List ℚ
  attempts : List Int
deriving DecidableEq, Repr

/-- Python truthiness of `user.get("user_id")`: missing (`None`) or zero. -/
def pyFalsy (userId : Option Int) : Bool :=
  userId == none || userId == some 0

/-- `errors_by_type` update: `if t not in d: d[t] = 0; d[t] += 1`. -/
def tallyError (kind : String) : List (String × ℕ) → List (String × ℕ)
  | [] => [(kind, 1)]
  | (k, n) :: rest =>
      if k == kind then (k, n + 1) :: rest else (k, n) :: tallyError kind rest

/-- The guarded `update_one({"_id": broadcast_id}, {"$inc": {"sent_count": 1}})`. -/
def dbIncSent (saveToDb : Bool) (st : SendState) : SendState :=
  if saveToDb && st.record.isSome then
    { st with record := st.record.map fun r => { r with sentCount := r.sentCount + 1 } }
  else st

/-- The guarded `update_one({"_id": broadcast_id}, {"$inc": {"failed_count": 1}})`. -/
def dbIncFailed (saveToDb : Bool) (st : SendState) : SendState :=
  if saveToDb && st.record.isSome then
    { st with record := st.record.map fun r => { r with failedCount := r.failedCount + 1 } }
  else st

/-- One iteration of the per-recipient loop of `send_broadcast`
(lines 137-287).  A falsy `user_id` is counted failed and skipped before
any send or database write.  Otherwise the first send attempt is issued and
the scripted platform reaction drives the branch: success sleeps the
current `SAFE_MESSAGE_DELAY`; `RetryAfter` first widens
`SAFE_MESSAGE_DELAY` to `max(current, timeout / batch_size + 0.1)`, sleeps
the mandated wait, then issues exactly one retry whose scripted result is
counted as sent or failed; the unreachable exceptions and unknown
exceptions are tallied and counted failed; `TelegramAPIError` additionally
sleeps one second. -/
def processUser (saveToDb : Bool) (batchSize : ℕ) (st : SendState) (u : PyUser) :
    SendState :=
  if pyFalsy u.userId then
    { st with failedCount := st.failedCount + 1 }
  else
    let uid := u.userId.getD 0
    match u.outcome with
    | .ok =>
        let st1 := { st with attempts := st.attempts ++ [uid],
                             sentCount := st.sentCount + 1 }
        let st2 := dbIncSent saveToDb st1
        { st2 with sleeps := st2.sleeps ++ [st2.safeMessageDelay] }
    | .retryAfter w retryOk =>
        let st1 := { st with attempts := st.attempts ++ [uid],
                             safeMessageDelay :=
                               max st.safeMessageDelay (w / (batchSize : ℚ) + 1/10) }
        let st2 := { st1 with sleeps := st1.sleeps ++ [w],
                              attempts := st1.attempts ++ [uid] }
        if retryOk then dbIncSent saveToDb { st2 with sentCount := st2.sentCount + 1 }
        else dbIncFailed saveToDb { st2 with failedCount := st2.failedCount + 1 }
    | .unreachable kind =>
        let st1 := { st with attempts := st.attempts ++ [uid],
                             errorsByType := tallyError kind st.errorsByType,
                             failedCount := st.failedCount + 1 }
        dbIncFailed saveToDb st1
    | .apiError =>
        let st1 := { st with attempts := st.attempts ++ [uid],
                             errorsByType := tallyError "TelegramAPIError" st.errorsByType,
                             failedCount := st.failedCount + 1 }
        let st2 := dbIncFailed saveToDb st1
        { st2 with sleeps := st2.sleeps ++ [(1 : ℚ)] }
    | .otherError kind =>
        let st1 := { st with attempts := st.attempts ++ [uid],
                             errorsByType := tallyError kind st.errorsByType,
                             failedCount := st.failedCount + 1 }
        dbIncFailed saveToDb st1

/-- The inner `for user in current_batch` loop. -/
def processBatch (saveToDb : Bool) (batchSize : ℕ) (st : SendState)
    (batch : List PyUser) : SendState :=
  batch.foldl (processUser saveToDb batchSize) st

/-- `asyncio.sleep(batch_delay)` between batches. -/
def interBatchSleep (batchDelay : ℕ) (st : SendState) : SendState :=
  { st with sleeps := st.sleeps ++ [(batchDelay : ℚ)] }

/-- The `for batch_index in range(total_batches)` loop (lines 130-292):
`remaining` counts down the batch indices still to run; each iteration
processes the next `batch_size`-slice of the user list and, except after
the final batch, sleeps `batch_delay`. -/
def runBatches (saveToDb : Bool) (batchSize batchDelay : ℕ) :
    ℕ → SendState → List PyUser → SendState
  | 0, st, _ => st
  | k + 1, st, users =>
      let st1 := processBatch saveToDb batchSize st (users.take batchSize)
      let st2 := if k > 0 then interBatchSleep batchDelay st1 else st1
      runBatches saveToDb batchSize batchDelay k st2 (users.drop batchSize)

/-- The statistics dict returned by `send_broadcast`. -/
structure Stats where
  total : ℕ
  sent : ℕ
  failed : ℕ
  errors : Option (List (String × ℕ))
deriving DecidableEq, Repr

/-- Result of one `send_broadcast` call: the returned statistics and the
persisted record this call created (`none` when `save_to_db` is false or no
recipient was found). -/
structure SendResult where
  stats : Stats
  record : Option BroadcastDoc
deriving DecidableEq, Repr

/-- `x or default` for the optional numeric arguments (`None` and `0` both
fall back to the default, as in Python). -/
def pyOrNat (x : Option ℕ) (default : ℕ) : ℕ :=
  match x with
  | none => default
  | some v => if v = 0 then default else v

/-- The record inserted by `send_broadcast` when `save_to_db` is true
(lines 90-108): status `in_progress`, zero counters, snapshotted total.
The generated Mongo id is modelled as 0. -/
def freshBroadcastDoc (messageText : String) (targetFilter : Option UserFilter)
    (total : ℕ) : BroadcastDoc :=
  { id := 0, messageText := messageText, targetFilter := targetFilter,
    scheduleTime := none, status := .inProgress,
    sentCount := 0, failedCount := 0, totalUsers := total }

/-- The initial local state of a `send_broadcast` run:
`SAFE_MESSAGE_DELAY = 0.4`, zero counters, empty tally. -/
def initSendState (record : Option BroadcastDoc) : SendState :=
  { sentCount := 0, failedCount := 0, errorsByType := [],
    safeMessageDelay := 2/5, record := record, sleeps := [], attempts := [] }

/-- `send_broadcast(bot, message_text, target_filter, save_to_db,
batch_size, batch_delay, ...)` (lines 38-310): resolve recipients; return
all-zero statistics when none; otherwise optionally insert the broadcast
record, run `ceil(total/batch_size)` batches, finally mark the record
completed and return the statistics (`errors` is `None` when the tally is
empty). -/
def send_broadcast (store : List PyUser) (messageText : String)
    (targetFilter : Option UserFilter) (saveToDb : Bool)
    (batchSize batchDelay : Option ℕ) : SendResult :=
  let bs := pyOrNat batchSize 25
  let bd := pyOrNat batchDelay 3
  let users := resolveRecipients store targetFilter
  if users.isEmpty then
    { stats := { total := 0, sent := 0, failed := 0, errors := none }, record := none }
  else
    let record0 : Option BroadcastDoc :=
      if saveToDb then some (freshBroadcastDoc messageText targetFilter users.length)
      else none
    let totalBatches := (users.length + bs - 1) / bs
    let stF := runBatches saveToDb bs bd totalBatches (initSendState record0) users
    let recordF :=
      if saveToDb && stF.record.isSome then
        stF.record.map fun r => { r with status := .completed }
      else stF.record
    { stats := { total := users.length, sent := stF.sentCount, failed := stF.failedCount,
                 errors := if stF.errorsByType.isEmpty then none
                           else some stF.errorsByType },
      record := recordF }

/-! ## The scheduler loop

From `check_scheduled_broadcasts` (`src/bot/utils/scheduler.py` lines
100-232, the variant wired up by `src/bot/main.py`). -/

/-- The `broadcasts` collection. -/
abbrev BroadcastDB := List BroadcastDoc

/-- The due-records query
`{"status": "scheduled", "schedule_time": {"$lte": now}}`; a record without
a schedule timestamp matches no `$lte` constraint. -/
def isDue (now : ℕ) (b : BroadcastDoc) : Bool :=
  b.status == .scheduled &&
    match b.scheduleTime with
    | some t => decide (t ≤ now)
    | none => false

/-- `update_one({"_id": i}, ...)` applying `f` to the document with id `i`
(ids are unique in the collection, so the keyed map touches one document). -/
def updateById (db : BroadcastDB) (i : ℕ) (f : BroadcastDoc → BroadcastDoc) :
    BroadcastDB :=
  db.map fun b => if b.id = i then f b else b

/-- `find_one` by id. -/
def docOf (db : BroadcastDB) (i : ℕ) : Option BroadcastDoc :=
  db.find? fun b => b.id == i

/-- The ids stored in the collection. -/
def idsOf (db : BroadcastDB) : List ℕ :=
  db.map (·.id)

/-- Environment of one scheduler tick: the subscriber store as of dispatch
time, and an oracle deciding whether the `try` block around the dispatch of
a given record raises a structural exception. -/
structure SchedEnv where
  store : List PyUser
  dispatchFails : BroadcastDoc → Bool

/-- Observable persisted-state events of one scheduler tick, in program
order: the filter-normalization write, the claim write
(`$set status=in_progress`), the invocation of the batch sender, and the
final write (`$set status=completed` with counters, or `$set status=error`). -/
inductive SchedEvent where
  | writeFilter (id : ℕ) : SchedEvent
  | claim (id : ℕ) : SchedEvent
  | dispatch (id : ℕ) : SchedEvent
  | finalize (id : ℕ) (status : BStatus) : SchedEvent
deriving DecidableEq, Repr

/-- The `$set {"target_filter": tf}` update of one document. -/
def setFilterUpd (tf : Option UserFilter) (x : BroadcastDoc) : BroadcastDoc :=
  { x with targetFilter := tf }

/-- The `$set {"status": s}` update of one document. -/
def setStatusUpd (s : BStatus) (x : BroadcastDoc) : BroadcastDoc :=
  { x with status := s }

/-- The final `$set {"status": "completed", "sent_count": sc,
"failed_count": fc}` update of one document. -/
def completeUpd (sc fc : ℕ) (x : BroadcastDoc) : BroadcastDoc :=
  { x with status := BStatus.completed, sentCount := sc, failedCount := fc }

/-- Lines 159-167: when the stored target filter is a dict without a status
key, `"status": "active"` is injected and the updated filter is persisted;
the (possibly updated) local `target_filter` is what the dispatch uses.
Returns the updated collection, the events emitted, and the local filter. -/
def normalizeFilter (db : BroadcastDB) (b : BroadcastDoc) :
    BroadcastDB × List SchedEvent × Option UserFilter :=
  match b.targetFilter with
  | some f =>
      if hasKey f "status" then (db, [], some f)
      else
        let f' := f ++ [("status", "active")]
        (updateById db b.id (setFilterUpd (some f')),
         [.writeFilter b.id], some f')
  | none => (db, [], none)

/-- The target filter actually passed to the batch sender for a due record
(the stored filter after status-injection). -/
def dispatchedFilter (b : BroadcastDoc) : Option UserFilter :=
  match b.targetFilter with
  | some f => if hasKey f "status" then some f else some (f ++ [("status", "active")])
  | none => none

/-- The statistics of the batch-sender run the scheduler performs for a due
record: `send_broadcast` with `save_to_db=False` and the tier chosen from
the record's snapshotted `total_users`. -/
def dispatchStats (env : SchedEnv) (b : BroadcastDoc) : Stats :=
  (send_broadcast env.store b.messageText (dispatchedFilter b) false
    (some (chooseTier b.totalUsers).1) (some (chooseTier b.totalUsers).2)).stats

/-- The record a successful scheduler dispatch leaves behind: normalized
filter, status completed, and the counters copied once from the returned
statistics; the snapshotted `total_users` is untouched. -/
def finalizedDoc (env : SchedEnv) (b : BroadcastDoc) : BroadcastDoc :=
  { b with
    targetFilter := dispatchedFilter b
    status := BStatus.completed
    sentCount := (dispatchStats env b).sent
    failedCount := (dispatchStats env b).failed }

/-- Processing of one due record (lines 146-229): normalize the filter,
claim the record (`$set status=in_progress`), then dispatch; on a
structural exception `$set status=error`, otherwise run the batch sender
with `save_to_db=False` and `$set status=completed` together with the final
`sent_count` / `failed_count` from the returned statistics (the snapshotted
`total_users` is not rewritten). -/
def processDue (env : SchedEnv) (acc : BroadcastDB × List SchedEvent)
    (b : BroadcastDoc) : BroadcastDB × List SchedEvent :=
  let db1 := (normalizeFilter acc.1 b).1
  let db2 := updateById db1 b.id (setStatusUpd .inProgress)
  if env.dispatchFails b then
    (updateById db2 b.id (setStatusUpd .error),
     acc.2 ++ ((normalizeFilter acc.1 b).2.1 ++
       [.claim b.id, .dispatch b.id, .finalize b.id .error]))
  else
    let stats := dispatchStats env b
    (updateById db2 b.id (completeUpd stats.sent stats.failed),
     acc.2 ++ ((normalizeFilter acc.1 b).2.1 ++
       [.claim b.id, .dispatch b.id, .finalize b.id .completed]))

/-- One scheduler tick `check_scheduled_broadcasts(bot)`: query the due
records once, then process them sequentially.  Returns the updated
collection, the event trace, and the ids of the dispatched records. -/
def check_scheduled_broadcasts (env : SchedEnv) (now : ℕ) (db : BroadcastDB) :
    BroadcastDB × List SchedEvent × List ℕ :=
  let due := db.filter (isDue now)
  let out := due.foldl (processDue env) (db, [])
  (out.1, out.2, due.map (·.id))

/-- A sequence of scheduler ticks at the given times (the 1-minute
`AsyncIOScheduler` interval job), accumulating the dispatched ids. -/
def runTicks (env : SchedEnv) : List ℕ → BroadcastDB → BroadcastDB × List ℕ
  | [], db => (db, [])
  | now :: rest, db =>
      let out := check_scheduled_broadcasts env now db
      let later := runTicks env rest out.1
      (later.1, out.2.2 ++ later.2)

/-! ## The legacy-time migration

From `migrate_old_broadcasts` (`src/bot/utils/scheduler.py` lines 53-98).
`pytz.timezone('Europe/Moscow')` is modelled as the fixed UTC+3 offset it
denotes for the timestamps this bot handles, so reinterpreting a naive
civil time as Moscow time and converting to UTC subtracts three hours. -/

/-- The hour component of a naive timestamp counted in seconds. -/
def hourOf (t : ℕ) : ℕ :=
  t / 3600 % 24

/-- The per-record body of the migration loop (lines 68-90): a present
schedule timestamp whose hour component exceeds 14 is reinterpreted from
UTC+3 civil time to UTC; otherwise the record is untouched. -/
def migrateRecord (b : BroadcastDoc) : BroadcastDoc :=
  match b.scheduleTime with
  | some t =>
      if 14 < hourOf t then { b with scheduleTime := some (t - 3 * 3600) } else b
  | none => b

/-- `migrate_old_broadcasts()`: the migration runs over the records matching
`{"status": "scheduled"}` and leaves all others untouched. -/
def migrate_old_broadcasts (db : BroadcastDB) : BroadcastDB :=
  db.map fun b => if b.status = .scheduled then migrateRecord b else b

/-! ## The pending-approval ledger sweep

From `clean_old_pending_approvals`
(`src/bot/handlers/join_request_handlers.py` lines 126-152). -/

/-- A value of the in-memory `pending_approvals` dict: the join-request
handle, the resolved source and the creation timestamp. -/
structure PendingEntry where
  requestHandle : ℕ
  source : Option String
  timestamp : ℕ
deriving DecidableEq, Repr

/-- `clean_old_pending_approvals()`: collect the user ids of the entries
whose age strictly exceeds 7 days, delete them from the dict, and return
the dict after deletion together with
`{"total_pending": remaining, "cleaned": evicted}`.  The dict is modelled
as its insertion-ordered entry list. -/
def clean_old_pending_approvals (now : ℕ) (pending : List (Int × PendingEntry)) :
    List (Int × PendingEntry) × ℕ × ℕ :=
  let expiredUserIds :=
    (pending.filter fun e => decide (7 * 86400 < now - e.2.timestamp)).map (·.1)
  let remaining := pending.filter fun e => !(expiredUserIds.contains e.1)
  (remaining, remaining.length, expiredUserIds.length)

/-! ## The full-report broadcast counting

From `generate_users_statistics_excel` (`src/bot/utils/statistics.py` lines
87-123): per loaded broadcast, skip unless the status is `completed` or
`in_progress`; when the stored target filter is a dict, bump the count of
every loaded user matching it key-by-key; a stored non-dict filter (such as
the `None` persisted by unfiltered immediate sends) bumps nobody.  The
batched paging concatenates to the whole collection, so the per-user count
is a fold over all broadcasts. -/

/-- `broadcast.get('status') in ['completed', 'in_progress']`. -/
def statusCountsForReport (s : BStatus) : Bool :=
  s == .completed || s == .inProgress

/-- The per-broadcast body of the counting loop: skip unless the status
counts; when the stored filter is a dict, bump the user's count on a full
match; a non-dict stored filter bumps nobody. -/
def reportStep (u : PyUser) (acc : ℕ) (b : BroadcastDoc) : ℕ :=
  if !statusCountsForReport b.status then acc
  else
    match b.targetFilter with
    | some f => if matchesFilter f u then acc + 1 else acc
    | none => acc

/-- The broadcasts the counting loop actually counts for a user. -/
def reportMatches (u : PyUser) (b : BroadcastDoc) : Bool :=
  statusCountsForReport b.status &&
    match b.targetFilter with
    | some f => matchesFilter f u
    | none => false

/-- The lifetime broadcast count the exporter computes for one user. -/
def broadcastCountFor (broadcasts : List BroadcastDoc) (u : PyUser) : ℕ :=
  broadcasts.foldl (reportStep u) 0

/-- The claim's contribution predicate, written from the spec's words: a
broadcast contributes iff its status is completed or in-progress and every
key/value pair in its stored target filter matches the user (an absent
filter has no pairs, hence matches vacuously).  Stated for comparison with
`broadcastCountFor`. -/
def specContributes (b : BroadcastDoc) (u : PyUser) : Bool :=
  statusCountsForReport b.status && matchesFilter (b.targetFilter.getD []) u

/-! ## Observation functions used to state the invariants -/

/-- The counter-relevant observation of a send state: the two local
counters and the persisted record handle.  Sleeps, attempts, the delay and
the tally do not feed back into these fields, which is what lets the
batched loop be analysed as one flat pass over the recipient list. -/
def obs (st : SendState) : ℕ × ℕ × Option BroadcastDoc :=
  (st.sentCount, st.failedCount, st.record)

/-- The action of one per-recipient step on the counter observation alone:
a falsy id bumps the local failed counter; otherwise the outcome decides
which local counter is bumped and, under the `save_to_db and broadcast_id`
guard, which persisted counter is bumped. -/
def obsStep (saveToDb : Bool) (o : ℕ × ℕ × Option BroadcastDoc)
    (userId : Option Int) (outcome : SendOutcome) :
    ℕ × ℕ × Option BroadcastDoc :=
  if pyFalsy userId then (o.1, o.2.1 + 1, o.2.2)
  else
    let incS : Option BroadcastDoc :=
      if saveToDb && o.2.2.isSome then
        o.2.2.map fun r => { r with sentCount := r.sentCount + 1 }
      else o.2.2
    let incF : Option BroadcastDoc :=
      if saveToDb && o.2.2.isSome then
        o.2.2.map fun r => { r with failedCount := r.failedCount + 1 }
      else o.2.2
    match outcome with
    | .ok => (o.1 + 1, o.2.1, incS)
    | .retryAfter _ retryOk =>
        if retryOk then (o.1 + 1, o.2.1, incS) else (o.1, o.2.1 + 1, incF)
    | .unreachable _ => (o.1, o.2.1 + 1, incF)
    | .apiError => (o.1, o.2.1 + 1, incF)
    | .otherError _ => (o.1, o.2.1 + 1, incF)

/-- Sum of the persisted counters of a record handle (0 when absent). -/
def recTotal : Option BroadcastDoc → ℕ
  | some r => r.sentCount + r.failedCount
  | none => 0

/-- Sum of the persisted counters of the run's record handle. -/
def dbTotal (st : SendState) : ℕ :=
  recTotal st.record

/-- The record with id `i` is not in status `scheduled` (in particular when
no such record exists). -/
def NotSched (db : BroadcastDB) (i : ℕ) : Prop :=
  ∀ d, docOf db i = some d → d.status ≠ .scheduled

/-- Every dispatch event in the trace is preceded by a claim event for the
same record id. -/
def dispatchPreceded (tr : List SchedEvent) : Prop :=
  ∀ i n, tr.get? n = some (.dispatch i) →
    ∃ m, m < n ∧ tr.get? m = some (.claim i)

/-! ## Sample documents used to instantiate theorems on concrete inputs -/

/-- An active subscriber from source `X`. -/
def sampleUserX : PyUser :=
  { userId := some 1, attrs := [("status", "active"), ("source", "X")], outcome := .ok }

/-- A second active subscriber from source `X`. -/
def sampleUserX2 : PyUser :=
  { userId := some 4, attrs := [("status", "active"), ("source", "X")], outcome := .ok }

/-- An active subscriber from source `Y`. -/
def sampleUserY : PyUser :=
  { userId := some 2, attrs := [("status", "active"), ("source", "Y")], outcome := .ok }

/-- A pending (not yet activated) subscriber from source `X`. -/
def sampleUserPending : PyUser :=
  { userId := some 5, attrs := [("status", "pending"), ("source", "X")], outcome := .ok }

/-- An active subscriber document lacking the `user_id` field. -/
def sampleUserNoId : PyUser :=
  { userId := none, attrs := [("status", "active")], outcome := .ok }

/-- An active subscriber whose first send hits a rate limit of 5 seconds and
whose single retry succeeds. -/
def sampleUserRetry : PyUser :=
  { userId := some 3, attrs := [("status", "active")], outcome := .retryAfter 5 true }

/-- A scheduled broadcast record targeting source `X`, due at time 60,
with a snapshotted total of 2 recipients. -/
def sampleScheduledDoc : BroadcastDoc :=
  { id := 7, messageText := "m", targetFilter := some [("source", "X")],
    scheduleTime := some 60, status := .scheduled,
    sentCount := 0, failedCount := 0, totalUsers := 2 }

/-- A scheduled broadcast record whose snapshotted total (1) is smaller than
the population matching its filter at dispatch time. -/
def sampleStaleDoc : BroadcastDoc :=
  { id := 9, messageText := "m", targetFilter := some [("source", "X")],
    scheduleTime := some 60, status := .scheduled,
    sentCount := 0, failedCount := 0, totalUsers := 1 }

/-- A completed broadcast record whose stored target filter is `None` (as
persisted by an unfiltered immediate send). -/
def sampleNoneFilterDoc : BroadcastDoc :=
  { id := 11, messageText := "m", targetFilter := none, scheduleTime := none,
    status := .completed, sentCount := 3, failedCount := 0, totalUsers := 3 }

/-- A dispatch environment with two source-`X` subscribers and no structural
failures. -/
def sampleEnv : SchedEnv :=
  { store := [sampleUserX, sampleUserX2], dispatchFails := fun _ => false }

/-- A pending-approval entry created at time 1000. -/
def samplePendingEntry : PendingEntry :=
  { requestHandle := 0, source := some "X", timestamp := 1000 }

/-! ## Projection lemmas for the guarded counter writes -/

@[simp] theorem dbIncSent_sentCount (s : Bool) (st : SendState) :
    (dbIncSent s st).sentCount = st.sentCount := by
  unfold dbIncSent; split <;> rfl

@[simp] theorem dbIncSent_failedCount (s : Bool) (st : SendState) :
    (dbIncSent s st).failedCount = st.failedCount := by
  unfold dbIncSent; split <;> rfl

@[simp] theorem dbIncSent_sleeps (s : Bool) (st : SendState) :
    (dbIncSent s st).sleeps = st.sleeps := by
  unfold dbIncSent; split <;> rfl

@[simp] theorem dbIncSent_attempts (s : Bool) (st : SendState) :
    (dbIncSent s st).attempts = st.attempts := by
  unfold dbIncSent; split <;> rfl

@[simp] theorem dbIncSent_delay (s : Bool) (st : SendState) :
    (dbIncSent s st).safeMessageDelay = st.safeMessageDelay := by
  unfold dbIncSent; split <;> rfl

@[simp] theorem dbIncSent_errors (s : Bool) (st : SendState) :
    (dbIncSent s st).errorsByType = st.errorsByType := by
  unfold dbIncSent; split <;> rfl

@[simp] theorem dbIncFailed_sentCount (s : Bool) (st : SendState) :
    (dbIncFailed s st).sentCount = st.sentCount := by
  unfold dbIncFailed; split <;> rfl

@[simp] theorem dbIncFailed_failedCount (s : Bool) (st : SendState) :
    (dbIncFailed s st).failedCount = st.failedCount := by
  unfold dbIncFailed; split <;> rfl

@[simp] theorem dbIncFailed_sleeps (s : Bool) (st : SendState) :
    (dbIncFailed s st).sleeps = st.sleeps := by
  unfold dbIncFailed; split <;> rfl

@[simp] theorem dbIncFailed_attempts (s : Bool) (st : SendState) :
    (dbIncFailed s st).attempts = st.attempts := by
  unfold dbIncFailed; split <;> rfl

@[simp] theorem dbIncFailed_delay (s : Bool) (st : SendState) :
    (dbIncFailed s st).safeMessageDelay = st.safeMessageDelay := by
  unfold dbIncFailed; split <;> rfl

@[simp] theorem dbIncFailed_errors (s : Bool) (st : SendState) :
    (dbIncFailed s st).errorsByType = st.errorsByType := by
  unfold dbIncFailed; split <;> rfl

@[simp] theorem dbIncSent_record_false (st : SendState) :
    (dbIncSent false st).record = st.record := by
  unfold dbIncSent; rfl

@[simp] theorem dbIncFailed_record_false (st : SendState) :
    (dbIncFailed false st).record = st.record := by
  unfold dbIncFailed; rfl

/-! ## C1 — batch tier selection -/

/-- C1: the tier table the code actually realizes.  The `elif total > 5000`
branch is shadowed by the `if total > 1000` branch and is unreachable, so
every total above 1000 — including 5000 and beyond — selects `(50, 5)`,
and the strict comparison sends exactly 1000 to the default `(25, 3)`;
the `(100, 10)` tier claimed for totals of 5000 or more is never chosen. -/
theorem c1_tier_selection_code_behavior :
    chooseTier 999 = (25, 3) ∧ chooseTier 1000 = (25, 3) ∧
    chooseTier 4999 = (50, 5) ∧ chooseTier 5000 = (50, 5) ∧
    chooseTier 10000 = (50, 5) ∧ ∀ n : ℕ, chooseTier n ≠ (100, 10) := by
  refine ⟨by decide, by decide, by decide, by decide, by decide, ?_⟩
  intro n
  unfold chooseTier
  by_cases h : n > 1000
  · simp [h]
  · have h2 : ¬n > 5000 := by omega
    simp [h, h2]

/-! ## C9 — recipients with a missing or falsy user id -/

/-- C9: a resolved recipient whose `user_id` is missing or falsy is counted
failed in the run's local statistics, no send is attempted for it, and no
persisted counter is touched (the loop continues before any database
increment). -/
theorem c9_falsy_user_id_counted_only_in_memory (saveToDb : Bool)
    (batchSize : ℕ) (st : SendState) (u : PyUser)
    (h : pyFalsy u.userId = true) :
    (processUser saveToDb batchSize st u).failedCount = st.failedCount + 1 ∧
    (processUser saveToDb batchSize st u).sentCount = st.sentCount ∧
    (processUser saveToDb batchSize st u).attempts = st.attempts ∧
    (processUser saveToDb batchSize st u).record = st.record := by
  simp [processUser, h]

/-- Witness for C9 at a concrete recipient without a `user_id` field. -/
theorem c9_falsy_user_id_counted_only_in_memory_witness :
    pyFalsy sampleUserNoId.userId = true ∧
    ((processUser true 25 (initSendState none) sampleUserNoId).failedCount =
        (initSendState none).failedCount + 1 ∧
      (processUser true 25 (initSendState none) sampleUserNoId).sentCount =
        (initSendState none).sentCount ∧
      (processUser true 25 (initSendState none) sampleUserNoId).attempts =
        (initSendState none).attempts ∧
      (processUser true 25 (initSendState none) sampleUserNoId).record =
        (initSendState none).record) :=
  ⟨by decide,
   c9_falsy_user_id_counted_only_in_memory true 25 (initSendState none)
     sampleUserNoId (by decide)⟩

/-! ## C4 — rate-limit handling -/

/-- C4: on a rate-limit signal with mandated wait `w` the sender sleeps
exactly `w`, widens the inter-message delay to
`max(current, w / batch_size + 0.1)`, attempts that recipient exactly one
more time (two send attempts in total), counts a successful retry as sent
and a failed retry as failed, and in either case the fold continues with
the remaining recipients. -/
theorem c4_rate_limit_retry (saveToDb : Bool) (batchSize : ℕ) (st : SendState)
    (u : PyUser) (w : ℚ) (retryOk : Bool) (rest : List PyUser)
    (hid : pyFalsy u.userId = false)
    (hout : u.outcome = .retryAfter w retryOk) :
    (processUser saveToDb batchSize st u).sleeps = st.sleeps ++ [w] ∧
    (processUser saveToDb batchSize st u).safeMessageDelay =
      max st.safeMessageDelay (w / (batchSize : ℚ) + 1/10) ∧
    (processUser saveToDb batchSize st u).attempts =
      st.attempts ++ [u.userId.getD 0, u.userId.getD 0] ∧
    (retryOk = true →
      (processUser saveToDb batchSize st u).sentCount = st.sentCount + 1 ∧
      (processUser saveToDb batchSize st u).failedCount = st.failedCount) ∧
    (retryOk = false →
      (processUser saveToDb batchSize st u).failedCount = st.failedCount + 1 ∧
      (processUser saveToDb batchSize st u).sentCount = st.sentCount) ∧
    (u :: rest).foldl (processUser saveToDb batchSize) st =
      rest.foldl (processUser saveToDb batchSize)
        (processUser saveToDb batchSize st u) := by
  cases retryOk <;> simp [processUser, hid, hout]

/-- Witness for C4 at a concrete recipient whose first send is rate-limited
for 5 seconds and whose retry succeeds. -/
theorem c4_rate_limit_retry_witness :
    pyFalsy sampleUserRetry.userId = false ∧
    sampleUserRetry.outcome = .retryAfter 5 true ∧
    ((processUser true 25 (initSendState none) sampleUserRetry).sleeps =
        (initSendState none).sleeps ++ [5] ∧
      (processUser true 25 (initSendState none) sampleUserRetry).safeMessageDelay =
        max (initSendState none).safeMessageDelay ((5 : ℚ) / (25 : ℚ) + 1/10) ∧
      (processUser true 25 (initSendState none) sampleUserRetry).attempts =
        (initSendState none).attempts ++
          [sampleUserRetry.userId.getD 0, sampleUserRetry.userId.getD 0] ∧
      (true = true →
        (processUser true 25 (initSendState none) sampleUserRetry).sentCount =
          (initSendState none).sentCount + 1 ∧
        (processUser true 25 (initSendState none) sampleUserRetry).failedCount =
          (initSendState none).failedCount) ∧
      (true = false →
        (processUser true 25 (initSendState none) sampleUserRetry).failedCount =
          (initSendState none).failedCount + 1 ∧
        (processUser true 25 (initSendState none) sampleUserRetry).sentCount =
          (initSendState none).sentCount) ∧
      ([sampleUserRetry] : List PyUser).foldl (processUser true 25) (initSendState none) =
        ([] : List PyUser).foldl (processUser true 25)
          (processUser true 25 (initSendState none) sampleUserRetry)) :=
  ⟨by decide, by decide,
   c4_rate_limit_retry true 25 (initSendState none) sampleUserRetry 5 true []
     (by decide) (by decide)⟩

/-! ## C7 — the legacy-time migration -/

/-- C7: on a scheduled record whose schedule-time hour component is at most
14 the migration is a no-op; only a record with hour component above 14 is
reinterpreted from UTC+3 civil time to UTC (three hours are subtracted,
which is well defined because such a timestamp is at least 15 hours into a
day). -/
theorem c7_migration_noop_at_or_below_14 (b : BroadcastDoc) (t : ℕ)
    (hst : b.scheduleTime = some t) :
    (hourOf t ≤ 14 → migrate_old_broadcasts [b] = [b]) ∧
    (b.status = .scheduled → 14 < hourOf t →
      3 * 3600 ≤ t ∧
      (migrate_old_broadcasts [b]).map (·.scheduleTime) = [some (t - 3 * 3600)]) := by
  constructor
  · intro hle
    by_cases hs : b.status = .scheduled
    · simp [migrate_old_broadcasts, hs, migrateRecord, hst, Nat.not_lt.mpr hle]
    · simp [migrate_old_broadcasts, hs]
  · intro hs hgt
    have hdiv : 15 ≤ t / 3600 := by
      have h1 : t / 3600 % 24 ≤ t / 3600 := Nat.mod_le _ _
      unfold hourOf at hgt
      omega
    have ht : 15 * 3600 ≤ t := (Nat.le_div_iff_mul_le (by norm_num)).mp hdiv
    exact ⟨by omega, by simp [migrate_old_broadcasts, hs, migrateRecord, hst, hgt]⟩

/-- Witness for C7: a scheduled record at civil hour 14:02 is untouched,
and one at hour 16:02 is shifted back three hours. -/
theorem c7_migration_noop_at_or_below_14_witness :
    ({ sampleScheduledDoc with scheduleTime := some (14 * 3600 + 120)} :
        BroadcastDoc).scheduleTime = some (14 * 3600 + 120) ∧
    (hourOf (14 * 3600 + 120) ≤ 14 →
      migrate_old_broadcasts
        [{ sampleScheduledDoc with scheduleTime := some (14 * 3600 + 120) }] =
        [{ sampleScheduledDoc with scheduleTime := some (14 * 3600 + 120) }]) ∧
    ({ sampleScheduledDoc with scheduleTime := some (16 * 3600 + 120)} :
        BroadcastDoc).scheduleTime = some (16 * 3600 + 120) ∧
    (({ sampleScheduledDoc with scheduleTime := some (16 * 3600 + 120)} :
        BroadcastDoc).status = .scheduled → 14 < hourOf (16 * 3600 + 120) →
      3 * 3600 ≤ 16 * 3600 + 120 ∧
      (migrate_old_broadcasts
          [{ sampleScheduledDoc with scheduleTime := some (16 * 3600 + 120) }]).map
          (·.scheduleTime) = [some (16 * 3600 + 120 - 3 * 3600)]) :=
  ⟨by decide,
   (c7_migration_noop_at_or_below_14
     { sampleScheduledDoc with scheduleTime := some (14 * 3600 + 120) }
     (14 * 3600 + 120) (by decide)).1,
   by decide,
   (c7_migration_noop_at_or_below_14
     { sampleScheduledDoc with scheduleTime := some (16 * 3600 + 120) }
     (16 * 3600 + 120) (by decide)).2⟩

/-! ## C8 — the pending-approval sweep -/

/-- With pairwise distinct user ids, deletion by collected expired ids is
the filter by the age predicate itself. -/
theorem sweep_remaining_eq (now : ℕ) (pending : List (Int × PendingEntry))
    (hnodup : (pending.map (·.1)).Nodup) :
    (clean_old_pending_approvals now pending).1 =
      pending.filter fun e => !decide (7 * 86400 < now - e.2.timestamp) := by
  unfold clean_old_pending_approvals
  apply List.filter_congr
  intro e he
  by_cases hp : 7 * 86400 < now - e.2.timestamp
  · simp [hp]
    exact ⟨e.2, he, by omega⟩
  · simp [hp]
    intro x hx
    have hxe : (e.1, x) = e :=
      List.inj_on_of_nodup_map (f := Prod.fst) hnodup hx he rfl
    have hx2 : x = e.2 := congrArg Prod.snd hxe
    subst hx2
    omega

/-- C8: the sweep removes exactly the entries strictly older than 7 days,
returns the remaining-entry count and the evicted count, and in particular
an entry created at `T` is evicted by a sweep at `T + 8` days and retained
by a sweep at `T + 6` days. -/
theorem c8_pending_sweep (pending : List (Int × PendingEntry))
    (hnodup : (pending.map (·.1)).Nodup) :
    (∀ now, (clean_old_pending_approvals now pending).1 =
      pending.filter fun e => !decide (7 * 86400 < now - e.2.timestamp)) ∧
    (∀ now, (clean_old_pending_approvals now pending).2.1 =
      (clean_old_pending_approvals now pending).1.length) ∧
    (∀ now, (clean_old_pending_approvals now pending).2.2 =
      (pending.filter fun e => decide (7 * 86400 < now - e.2.timestamp)).length) ∧
    (∀ T uid en, (uid, en) ∈ pending → en.timestamp = T →
      (uid, en) ∉ (clean_old_pending_approvals (T + 8 * 86400) pending).1 ∧
      (uid, en) ∈ (clean_old_pending_approvals (T + 6 * 86400) pending).1) := by
  refine ⟨fun now => sweep_remaining_eq now pending hnodup, fun now => rfl,
    fun now => by simp [clean_old_pending_approvals], ?_⟩
  intro T uid en hmem hts
  constructor
  · rw [sweep_remaining_eq _ _ hnodup]
    intro hin
    have h2 := (List.mem_filter.mp hin).2
    rw [hts] at h2
    simp only [Bool.not_eq_true', decide_eq_false_iff_not] at h2
    omega
  · rw [sweep_remaining_eq _ _ hnodup]
    refine List.mem_filter.mpr ⟨hmem, ?_⟩
    rw [hts]
    simp only [Bool.not_eq_true', decide_eq_false_iff_not]
    omega

/-- Witness for C8 on a one-entry ledger created at time 1000. -/
theorem c8_pending_sweep_witness :
    (([(5, samplePendingEntry)] : List (Int × PendingEntry)).map (·.1)).Nodup ∧
    ((5, samplePendingEntry) ∉
        (clean_old_pending_approvals (1000 + 8 * 86400) [(5, samplePendingEntry)]).1 ∧
      (5, samplePendingEntry) ∈
        (clean_old_pending_approvals (1000 + 6 * 86400) [(5, samplePendingEntry)]).1) :=
  ⟨by decide,
   (c8_pending_sweep [(5, samplePendingEntry)] (by decide)).2.2.2 1000 5
     samplePendingEntry (by decide) (by decide)⟩

/-! ## C5 — recipient resolution -/

/-- Matching a one-pair status filter is exactly the active-status lookup. -/
theorem matchesFilter_status_singleton (u : PyUser) (s : String) :
    matchesFilter [("status", s)] u = (lookupAttr u "status" == some s) := by
  simp [matchesFilter]

/-- C5: a target filter without an explicit status key resolves exactly as
the same filter with `status = "active"` appended as an exact-match
conjunct; a filter-supplied status is never overridden; and with no filter
at all exactly the recipients whose status is `active` are returned. -/
theorem c5_resolver_implicit_active (store : List PyUser) (f : UserFilter)
    (hno : hasKey f "status" = false) :
    resolveRecipients store (some f) =
      get_users_by_filter store (f ++ [("status", "active")]) ∧
    (∀ g : UserFilter, hasKey g "status" = true →
      resolveRecipients store (some g) = get_users_by_filter store g) ∧
    (∀ u, u ∈ resolveRecipients store none ↔
      u ∈ store ∧ lookupAttr u "status" = some "active") := by
  refine ⟨?_, ?_, ?_⟩
  · rcases hf : f with _ | ⟨kv, rest⟩
    · have : resolveRecipients store (some []) =
          store.filter fun u => lookupAttr u "status" == some "active" := by
        simp [resolveRecipients, filterTruthy, get_all_users]
      rw [this]
      unfold get_users_by_filter
      apply List.filter_congr
      intro u _
      simp [matchesFilter_status_singleton]
    · rw [← hf]
      have htr : filterTruthy (some f) = true := by
        rw [hf]; simp [filterTruthy]
      simp only [resolveRecipients, htr, if_pos]
      simp [combinedFilter, hno]
  · intro g hg
    have hne : g ≠ [] := by
      intro h
      rw [h] at hg
      simp [hasKey] at hg
    have htr : filterTruthy (some g) = true := by
      simp [filterTruthy, hne]
    simp only [resolveRecipients, htr, if_pos]
    simp [combinedFilter, hg]
  · intro u
    simp [resolveRecipients, filterTruthy, get_all_users, List.mem_filter]

/-- Witness for C5: the filter `{source: "X"}` resolves as
`{source: "X", status: "active"}` over a three-user store. -/
theorem c5_resolver_implicit_active_witness :
    hasKey [("source", "X")] "status" = false ∧
    (resolveRecipients [sampleUserX, sampleUserPending, sampleUserY]
        (some [("source", "X")]) =
      get_users_by_filter [sampleUserX, sampleUserPending, sampleUserY]
        ([("source", "X")] ++ [("status", "active")]) ∧
     (∀ g : UserFilter, hasKey g "status" = true →
       resolveRecipients [sampleUserX, sampleUserPending, sampleUserY] (some g) =
         get_users_by_filter [sampleUserX, sampleUserPending, sampleUserY] g) ∧
     (∀ u, u ∈ resolveRecipients [sampleUserX, sampleUserPending, sampleUserY] none ↔
       u ∈ [sampleUserX, sampleUserPending, sampleUserY] ∧
         lookupAttr u "status" = some "active")) :=
  ⟨by decide,
   c5_resolver_implicit_active [sampleUserX, sampleUserPending, sampleUserY]
     [("source", "X")] (by decide)⟩

/-! ## C10 — report broadcast counting -/

/-- One report step adds one exactly when the broadcast is one the loop
counts for this user. -/
theorem reportStep_eq (u : PyUser) (acc : ℕ) (b : BroadcastDoc) :
    reportStep u acc b = acc + (if reportMatches u b then 1 else 0) := by
  unfold reportStep reportMatches
  rcases hs : statusCountsForReport b.status with _ | _
  · simp [hs]
  · rcases htf : b.targetFilter with _ | f
    · simp [hs, htf]
    · rcases hm : matchesFilter f u with _ | _ <;> simp [hs, htf, hm]

/-- The report fold with an arbitrary accumulator counts the broadcasts
whose status is completed or in-progress and whose stored filter is a dict
matching the user. -/
theorem broadcastCount_go (u : PyUser) (l : List BroadcastDoc) :
    ∀ acc : ℕ,
      l.foldl (reportStep u) acc = acc + (l.filter (reportMatches u)).length := by
  induction l with
  | nil => simp
  | cons b bs ih =>
      intro acc
      rw [List.foldl_cons, List.filter_cons, ih (reportStep u acc b), reportStep_eq]
      rcases hm : reportMatches u b with _ | _ <;> simp [hm]
      omega

/-- C10 counterexample: a completed broadcast whose stored target filter is
`None` (an unfiltered immediate send) satisfies the claim's condition —
its status counts and every key/value pair of its (empty) stored filter
matches the user — yet the exporter adds nothing to the user's count. -/
theorem c10_counterexample :
    specContributes sampleNoneFilterDoc sampleUserX = true ∧
    broadcastCountFor [sampleNoneFilterDoc] sampleUserX = 0 := by
  decide

/-- C10 (amended): a broadcast contributes to a user's count iff its status
is completed or in-progress and its stored target filter is a dict whose
every key/value pair matches the user; a stored non-dict filter (`None`)
never contributes, and scheduled or error broadcasts never contribute. -/
theorem c10_amended_report_counting :
    (∀ (broadcasts : List BroadcastDoc) (u : PyUser),
      broadcastCountFor broadcasts u =
        (broadcasts.filter (reportMatches u)).length) ∧
    (∀ (broadcasts : List BroadcastDoc) (u : PyUser),
      (∀ b ∈ broadcasts, b.status = .scheduled ∨ b.status = .error) →
      broadcastCountFor broadcasts u = 0) := by
  have hmain : ∀ (broadcasts : List BroadcastDoc) (u : PyUser),
      broadcastCountFor broadcasts u =
        (broadcasts.filter (reportMatches u)).length := by
    intro broadcasts u
    unfold broadcastCountFor
    rw [broadcastCount_go u broadcasts 0]
    omega
  refine ⟨hmain, ?_⟩
  intro broadcasts u hall
  rw [hmain]
  have hnil : broadcasts.filter (reportMatches u) = [] := by
    apply List.filter_eq_nil_iff.mpr
    intro b hb
    rcases hall b hb with h | h <;>
      simp [reportMatches, h, statusCountsForReport]
  rw [hnil]
  rfl

/-- Witness for C10 (amended) at a scheduled-only collection. -/
theorem c10_amended_report_counting_witness :
    (∀ b ∈ [sampleScheduledDoc], b.status = BStatus.scheduled ∨
        b.status = BStatus.error) ∧
    broadcastCountFor [sampleScheduledDoc] sampleUserX = 0 :=
  ⟨by decide,
   c10_amended_report_counting.2 [sampleScheduledDoc] sampleUserX (by decide)⟩

/-! ## The batched loop as a flat pass over the recipient list -/

theorem obs_interBatchSleep (bd : ℕ) (st : SendState) :
    obs (interBatchSleep bd st) = obs st := rfl

/-- One per-recipient step acts on the counter observation as `obsStep`. -/
theorem obs_processUser (s : Bool) (bs : ℕ) (st : SendState) (u : PyUser) :
    obs (processUser s bs st u) = obsStep s (obs st) u.userId u.outcome := by
  obtain ⟨uid, attrs, outc⟩ := u
  rcases hp : pyFalsy uid with _ | _
  · cases outc with
    | ok =>
        simp [processUser, obsStep, obs, dbIncSent, hp, apply_ite] <;>
          split <;> intros <;> simp_all
    | retryAfter w rok =>
        cases rok <;>
          simp [processUser, obsStep, obs, dbIncSent, dbIncFailed, hp, apply_ite] <;>
          split <;> intros <;> simp_all
    | unreachable k =>
        simp [processUser, obsStep, obs, dbIncFailed, hp, apply_ite] <;>
          split <;> intros <;> simp_all
    | apiError =>
        simp [processUser, obsStep, obs, dbIncFailed, hp, apply_ite] <;>
          split <;> intros <;> simp_all
    | otherError k =>
        simp [processUser, obsStep, obs, dbIncFailed, hp, apply_ite] <;>
          split <;> intros <;> simp_all
  · simp [processUser, obsStep, obs, hp]

/-- The counter observation after one recipient depends only on the counter
observation before it. -/
theorem obs_processUser_congr (s : Bool) (bs : ℕ) (st st' : SendState)
    (u : PyUser) (h : obs st = obs st') :
    obs (processUser s bs st u) = obs (processUser s bs st' u) := by
  rw [obs_processUser, obs_processUser, h]

theorem obs_foldl_congr (s : Bool) (bs : ℕ) (l : List PyUser) :
    ∀ st st' : SendState, obs st = obs st' →
      obs (l.foldl (processUser s bs) st) = obs (l.foldl (processUser s bs) st') := by
  induction l with
  | nil => intro st st' h; simpa using h
  | cons u rest ih =>
      intro st st' h
      rw [List.foldl_cons, List.foldl_cons]
      exact ih _ _ (obs_processUser_congr s bs st st' u h)

/-- Enough batch iterations consume the whole recipient list: the counters
and the record handle evolve as in a single flat fold. -/
theorem obs_runBatches (s : Bool) (bs bd : ℕ) :
    ∀ (k : ℕ) (st : SendState) (users : List PyUser), users.length ≤ k * bs →
      obs (runBatches s bs bd k st users) =
        obs (users.foldl (processUser s bs) st) := by
  intro k
  induction k with
  | zero =>
      intro st users h
      have : users = [] := List.eq_nil_of_length_eq_zero (by omega)
      subst this
      rfl
  | succ k ih =>
      intro st users h
      show obs (runBatches s bs bd (k + 1) st users) = _
      rw [runBatches]
      have hlen : (users.drop bs).length ≤ k * bs := by
        rw [List.length_drop]
        have : (k + 1) * bs = k * bs + bs := by ring
        omega
      rw [ih _ (users.drop bs) hlen]
      have hmid : obs (if k > 0 then
          interBatchSleep bd (processBatch s bs st (users.take bs))
          else processBatch s bs st (users.take bs)) =
          obs ((users.take bs).foldl (processUser s bs) st) := by
        split <;> simp [obs_interBatchSleep, processBatch]
      rw [obs_foldl_congr s bs (users.drop bs) _ _ hmid,
        ← List.foldl_append, List.take_append_drop]

theorem lt_div_add_one_mul (a b : ℕ) (hb : 0 < b) : a < (a / b + 1) * b := by
  have h1 := Nat.div_add_mod a b
  have h2 := Nat.mod_lt a hb
  calc a = b * (a / b) + a % b := h1.symm
    _ < b * (a / b) + b := by omega
    _ = (a / b + 1) * b := by ring

/-- `ceil(n / bs) * bs` covers `n` for positive `bs`. -/
theorem le_ceilDivBatches_mul (n bs : ℕ) (h : 1 ≤ bs) :
    n ≤ ((n + bs - 1) / bs) * bs := by
  rcases Nat.eq_zero_or_pos n with h0 | h0
  · subst h0; simp
  · have hrw : n + bs - 1 = (n - 1) + bs := by omega
    have hdiv : (n + bs - 1) / bs = (n - 1) / bs + 1 := by
      rw [hrw, Nat.add_div_right _ (by omega)]
    have hlt : n - 1 < ((n - 1) / bs + 1) * bs :=
      lt_div_add_one_mul (n - 1) bs (by omega)
    rw [hdiv]
    omega

theorem pyOrNat_pos (x : Option ℕ) : 1 ≤ pyOrNat x 25 := by
  rcases x with _ | v
  · decide
  · show 1 ≤ if v = 0 then 25 else v
    split <;> omega

/-! ## Per-recipient counter invariants -/

/-- The guarded persisted bump keeps the record's presence. -/
theorem isSome_guardBump (s : Bool) (oo : Option BroadcastDoc)
    (g : BroadcastDoc → BroadcastDoc) :
    (if s && oo.isSome then oo.map g else oo).isSome = oo.isSome := by
  split <;> simp

/-- The guarded persisted bump keeps the record's status and total when the
bump does. -/
theorem statusTotal_guardBump (s : Bool) (oo : Option BroadcastDoc)
    (g : BroadcastDoc → BroadcastDoc)
    (hg : ∀ r, ((g r).status, (g r).totalUsers) = (r.status, r.totalUsers)) :
    (if s && oo.isSome then oo.map g else oo).map
        (fun r => (r.status, r.totalUsers)) =
      oo.map (fun r => (r.status, r.totalUsers)) := by
  split
  · rcases oo with _ | r
    · rfl
    · simp [hg r]
  · rfl

theorem obsStep_sum (s : Bool) (o : ℕ × ℕ × Option BroadcastDoc)
    (uid : Option Int) (outc : SendOutcome) :
    (obsStep s o uid outc).1 + (obsStep s o uid outc).2.1 = o.1 + o.2.1 + 1 := by
  unfold obsStep
  rcases hp : pyFalsy uid with _ | _
  · simp only [hp, Bool.false_eq_true, if_false]
    cases outc with
    | ok => simp; omega
    | retryAfter w rok => cases rok <;> simp <;> omega
    | unreachable k => simp; omega
    | apiError => simp; omega
    | otherError k => simp; omega
  · simp only [hp, if_true]
    omega

theorem obsStep_record_false (o : ℕ × ℕ × Option BroadcastDoc)
    (uid : Option Int) (outc : SendOutcome) :
    (obsStep false o uid outc).2.2 = o.2.2 := by
  unfold obsStep
  rcases hp : pyFalsy uid with _ | _
  · simp only [hp, Bool.false_eq_true, if_false, Bool.false_and]
    cases outc with
    | ok => simp
    | retryAfter w rok => cases rok <;> simp
    | unreachable k => simp
    | apiError => simp
    | otherError k => simp
  · simp only [hp, if_true]

theorem obsStep_record_isSome (s : Bool) (o : ℕ × ℕ × Option BroadcastDoc)
    (uid : Option Int) (outc : SendOutcome) :
    (obsStep s o uid outc).2.2.isSome = o.2.2.isSome := by
  unfold obsStep
  rcases hp : pyFalsy uid with _ | _
  · simp only [hp, Bool.false_eq_true, if_false]
    cases outc with
    | ok => exact isSome_guardBump s o.2.2 _
    | retryAfter w rok => cases rok <;> exact isSome_guardBump s o.2.2 _
    | unreachable k => exact isSome_guardBump s o.2.2 _
    | apiError => exact isSome_guardBump s o.2.2 _
    | otherError k => exact isSome_guardBump s o.2.2 _
  · simp only [hp, if_true]

theorem obsStep_statusTotal (s : Bool) (o : ℕ × ℕ × Option BroadcastDoc)
    (uid : Option Int) (outc : SendOutcome) :
    (obsStep s o uid outc).2.2.map (fun r => (r.status, r.totalUsers)) =
      o.2.2.map (fun r => (r.status, r.totalUsers)) := by
  unfold obsStep
  rcases hp : pyFalsy uid with _ | _
  · simp only [hp, Bool.false_eq_true, if_false]
    cases outc with
    | ok => exact statusTotal_guardBump s o.2.2 _ (fun r => rfl)
    | retryAfter w rok =>
        cases rok <;> exact statusTotal_guardBump s o.2.2 _ (fun r => rfl)
    | unreachable k => exact statusTotal_guardBump s o.2.2 _ (fun r => rfl)
    | apiError => exact statusTotal_guardBump s o.2.2 _ (fun r => rfl)
    | otherError k => exact statusTotal_guardBump s o.2.2 _ (fun r => rfl)
  · simp only [hp, if_true]

theorem obsStep_recTotal (o : ℕ × ℕ × Option BroadcastDoc)
    (uid : Option Int) (outc : SendOutcome) (r : BroadcastDoc)
    (hr : o.2.2 = some r) :
    recTotal (obsStep true o uid outc).2.2 =
      recTotal o.2.2 + (if pyFalsy uid then 0 else 1) := by
  unfold obsStep
  rcases hp : pyFalsy uid with _ | _
  · simp only [hp, Bool.false_eq_true, if_false]
    cases outc with
    | ok => simp [hr, recTotal]; omega
    | retryAfter w rok => cases rok <;> simp [hr, recTotal] <;> omega
    | unreachable k => simp [hr, recTotal]; omega
    | apiError => simp [hr, recTotal]; omega
    | otherError k => simp [hr, recTotal]; omega
  · simp only [hp, if_true]
    simp

/-- Every processed recipient contributes exactly one to the sum of the
local counters. -/
theorem processUser_count (s : Bool) (bs : ℕ) (st : SendState) (u : PyUser) :
    (processUser s bs st u).sentCount + (processUser s bs st u).failedCount =
      st.sentCount + st.failedCount + 1 := by
  have h := congrArg (fun o => o.1 + o.2.1) (obs_processUser s bs st u)
  simp only [obs] at h
  rw [h, obsStep_sum]

theorem foldl_processUser_count (s : Bool) (bs : ℕ) (l : List PyUser) :
    ∀ st : SendState,
      (l.foldl (processUser s bs) st).sentCount +
        (l.foldl (processUser s bs) st).failedCount =
      st.sentCount + st.failedCount + l.length := by
  induction l with
  | nil => intro st; simp
  | cons u rest ih =>
      intro st
      rw [List.foldl_cons, ih (processUser s bs st u), processUser_count]
      simp [List.length_cons]
      omega

/-- With `save_to_db=False` the per-recipient step never touches a record. -/
theorem processUser_record_false (bs : ℕ) (st : SendState) (u : PyUser) :
    (processUser false bs st u).record = st.record := by
  have h := congrArg (fun o => o.2.2) (obs_processUser false bs st u)
  simp only [obs] at h
  rw [h, obsStep_record_false]

theorem foldl_processUser_record_false (bs : ℕ) (l : List PyUser) :
    ∀ st : SendState, (l.foldl (processUser false bs) st).record = st.record := by
  induction l with
  | nil => intro st; rfl
  | cons u rest ih =>
      intro st
      rw [List.foldl_cons, ih, processUser_record_false]

/-- The step preserves existence of the record handle. -/
theorem processUser_record_isSome (s : Bool) (bs : ℕ) (st : SendState)
    (u : PyUser) :
    (processUser s bs st u).record.isSome = st.record.isSome := by
  have h := congrArg (fun o => o.2.2) (obs_processUser s bs st u)
  simp only [obs] at h
  rw [h, obsStep_record_isSome]

/-- The step never changes the record's status or snapshotted total. -/
theorem processUser_record_statusTotal (s : Bool) (bs : ℕ) (st : SendState)
    (u : PyUser) :
    (processUser s bs st u).record.map (fun r => (r.status, r.totalUsers)) =
      st.record.map (fun r => (r.status, r.totalUsers)) := by
  have h := congrArg (fun o => o.2.2) (obs_processUser s bs st u)
  simp only [obs] at h
  rw [h, obsStep_statusTotal]

/-- With `save_to_db` set and a record present, each recipient with a
truthy user id bumps exactly one persisted counter; a falsy one bumps
none. -/
theorem processUser_dbTotal (bs : ℕ) (st : SendState) (u : PyUser)
    (hr : st.record.isSome = true) :
    dbTotal (processUser true bs st u) =
      dbTotal st + (if pyFalsy u.userId then 0 else 1) := by
  obtain ⟨r, hr⟩ := Option.isSome_iff_exists.mp hr
  have h := congrArg (fun o => o.2.2) (obs_processUser true bs st u)
  simp only [obs] at h
  unfold dbTotal
  rw [h, obsStep_recTotal _ _ _ r hr]

theorem foldl_processUser_record_isSome (s : Bool) (bs : ℕ) (l : List PyUser) :
    ∀ st : SendState,
      (l.foldl (processUser s bs) st).record.isSome = st.record.isSome := by
  induction l with
  | nil => intro st; rfl
  | cons u rest ih =>
      intro st
      rw [List.foldl_cons, ih, processUser_record_isSome]

theorem foldl_processUser_statusTotal (s : Bool) (bs : ℕ) (l : List PyUser) :
    ∀ st : SendState,
      (l.foldl (processUser s bs) st).record.map (fun r => (r.status, r.totalUsers)) =
        st.record.map (fun r => (r.status, r.totalUsers)) := by
  induction l with
  | nil => intro st; rfl
  | cons u rest ih =>
      intro st
      rw [List.foldl_cons, ih, processUser_record_statusTotal]

/-- Flat-fold form of the mid-run persistence invariant: with a record
present, the persisted counters after any recipient list equal the number
of its members with a truthy user id. -/
theorem foldl_processUser_dbTotal (bs : ℕ) (l : List PyUser) :
    ∀ st : SendState, st.record.isSome = true →
      dbTotal (l.foldl (processUser true bs) st) =
        dbTotal st + (l.filter fun u => !pyFalsy u.userId).length := by
  induction l with
  | nil => intro st _; simp
  | cons u rest ih =>
      intro st hr
      rw [List.foldl_cons, List.filter_cons,
        ih (processUser true bs st u)
          (by rw [processUser_record_isSome]; exact hr),
        processUser_dbTotal bs st u hr]
      rcases hp : pyFalsy u.userId with _ | _ <;> simp [hp] <;> omega

/-! ## Whole-run facts about `send_broadcast` -/

/-- The returned statistics always satisfy `sent + failed = total`. -/
theorem send_broadcast_stats_sum (store : List PyUser) (mt : String)
    (tf : Option UserFilter) (s : Bool) (bsz bdz : Option ℕ) :
    (send_broadcast store mt tf s bsz bdz).stats.sent +
        (send_broadcast store mt tf s bsz bdz).stats.failed =
      (send_broadcast store mt tf s bsz bdz).stats.total := by
  rcases he : (resolveRecipients store tf).isEmpty with _ | _
  · simp only [send_broadcast, he, Bool.false_eq_true, if_false]
    have hbs : 1 ≤ pyOrNat bsz 25 := pyOrNat_pos bsz
    have hK : (resolveRecipients store tf).length ≤
        (((resolveRecipients store tf).length + pyOrNat bsz 25 - 1) /
          pyOrNat bsz 25) * pyOrNat bsz 25 :=
      le_ceilDivBatches_mul _ _ hbs
    have hobs := obs_runBatches s (pyOrNat bsz 25) (pyOrNat bdz 3)
      (((resolveRecipients store tf).length + pyOrNat bsz 25 - 1) / pyOrNat bsz 25)
      (initSendState (if s then
        some (freshBroadcastDoc mt tf (resolveRecipients store tf).length)
        else none))
      (resolveRecipients store tf) hK
    have hsent := congrArg (fun o => o.1) hobs
    have hfail := congrArg (fun o => o.2.1) hobs
    simp only [obs] at hsent hfail
    rw [hsent, hfail, foldl_processUser_count]
    simp [initSendState]
  · simp only [send_broadcast, he, if_true]

/-- The returned total is the dispatch-time recipient count. -/
theorem send_broadcast_stats_total (store : List PyUser) (mt : String)
    (tf : Option UserFilter) (s : Bool) (bsz bdz : Option ℕ) :
    (send_broadcast store mt tf s bsz bdz).stats.total =
      (resolveRecipients store tf).length := by
  rcases he : (resolveRecipients store tf).isEmpty with _ | _
  · simp only [send_broadcast, he, Bool.false_eq_true, if_false]
  · simp only [send_broadcast, he, if_true]
    have := List.isEmpty_iff.mp he
    rw [this]
    rfl

/-- With `save_to_db=False` the run holds no record handle at all: nothing
is persisted, neither mid-run nor at the end. -/
theorem send_broadcast_record_none (store : List PyUser) (mt : String)
    (tf : Option UserFilter) (bsz bdz : Option ℕ) :
    (send_broadcast store mt tf false bsz bdz).record = none := by
  rcases he : (resolveRecipients store tf).isEmpty with _ | _
  · simp only [send_broadcast, he, Bool.false_eq_true, if_false]
    have hbs : 1 ≤ pyOrNat bsz 25 := pyOrNat_pos bsz
    have hK : (resolveRecipients store tf).length ≤
        (((resolveRecipients store tf).length + pyOrNat bsz 25 - 1) /
          pyOrNat bsz 25) * pyOrNat bsz 25 :=
      le_ceilDivBatches_mul _ _ hbs
    have hobs := obs_runBatches false (pyOrNat bsz 25) (pyOrNat bdz 3)
      (((resolveRecipients store tf).length + pyOrNat bsz 25 - 1) / pyOrNat bsz 25)
      (initSendState none) (resolveRecipients store tf) hK
    have hrec := congrArg (fun o => o.2.2) hobs
    simp only [obs] at hrec
    rw [foldl_processUser_record_false] at hrec
    simp [hrec]
    rfl
  · simp only [send_broadcast, he, if_true]

/-- With `save_to_db=True` and a non-empty recipient list, the persisted
record ends completed, keeps the snapshotted total, and its counters sum to
the number of resolved recipients carrying a truthy user id. -/
theorem send_broadcast_record_some (store : List PyUser) (mt : String)
    (tf : Option UserFilter) (bsz bdz : Option ℕ)
    (h : (resolveRecipients store tf).isEmpty = false) :
    ∃ r, (send_broadcast store mt tf true bsz bdz).record = some r ∧
      r.status = .completed ∧
      r.totalUsers = (resolveRecipients store tf).length ∧
      r.sentCount + r.failedCount =
        ((resolveRecipients store tf).filter fun u => !pyFalsy u.userId).length := by
  simp only [send_broadcast, h, Bool.false_eq_true, if_false, if_true,
    Bool.true_and]
  have hbs : 1 ≤ pyOrNat bsz 25 := pyOrNat_pos bsz
  have hK : (resolveRecipients store tf).length ≤
      (((resolveRecipients store tf).length + pyOrNat bsz 25 - 1) /
        pyOrNat bsz 25) * pyOrNat bsz 25 :=
    le_ceilDivBatches_mul _ _ hbs
  have hobs := obs_runBatches true (pyOrNat bsz 25) (pyOrNat bdz 3)
    (((resolveRecipients store tf).length + pyOrNat bsz 25 - 1) / pyOrNat bsz 25)
    (initSendState (some (freshBroadcastDoc mt tf (resolveRecipients store tf).length)))
    (resolveRecipients store tf) hK
  have hrec := congrArg (fun o => o.2.2) hobs
  simp only [obs] at hrec
  have hsome : ((resolveRecipients store tf).foldl
      (processUser true (pyOrNat bsz 25))
      (initSendState (some (freshBroadcastDoc mt tf
        (resolveRecipients store tf).length)))).record.isSome = true := by
    rw [foldl_processUser_record_isSome]
    rfl
  obtain ⟨r0, hr0⟩ := Option.isSome_iff_exists.mp hsome
  have hstat := foldl_processUser_statusTotal true (pyOrNat bsz 25)
    (resolveRecipients store tf)
    (initSendState (some (freshBroadcastDoc mt tf (resolveRecipients store tf).length)))
  rw [hr0] at hstat
  have hstat' : (r0.status, r0.totalUsers) =
      (BStatus.inProgress, (resolveRecipients store tf).length) := by
    simpa [initSendState, freshBroadcastDoc] using hstat
  have hdb := foldl_processUser_dbTotal (pyOrNat bsz 25)
    (resolveRecipients store tf)
    (initSendState (some (freshBroadcastDoc mt tf (resolveRecipients store tf).length)))
    (by rfl)
  rw [dbTotal, hr0] at hdb
  have hdb' : r0.sentCount + r0.failedCount =
      ((resolveRecipients store tf).filter fun u => !pyFalsy u.userId).length := by
    simpa [recTotal, dbTotal, initSendState, freshBroadcastDoc] using hdb
  refine ⟨{ r0 with status := .completed }, ?_, rfl, ?_, ?_⟩
  · rw [hrec, hr0]
    rfl
  · have := congrArg Prod.snd hstat'
    simpa using this
  · simpa using hdb'

/-! ## Keyed updates of the broadcasts collection -/

theorem idsOf_updateById (db : BroadcastDB) (i : ℕ)
    (f : BroadcastDoc → BroadcastDoc) (hf : ∀ b, (f b).id = b.id) :
    idsOf (updateById db i f) = idsOf db := by
  unfold idsOf updateById
  rw [List.map_map]
  apply List.map_congr_left
  intro b _
  by_cases hb : b.id = i <;> simp [hb, hf]

theorem docOf_updateById (db : BroadcastDB) (i : ℕ)
    (f : BroadcastDoc → BroadcastDoc) (hf : ∀ b, (f b).id = b.id) (j : ℕ) :
    docOf (updateById db i f) j =
      if j = i then (docOf db i).map f else docOf db j := by
  unfold docOf updateById
  rw [List.find?_map]
  have hfun : ((fun b => b.id == j) ∘ fun b => if b.id = i then f b else b) =
      fun b => b.id == j := by
    funext b
    by_cases hb : b.id = i <;> simp [Function.comp, hb, hf]
  rw [hfun]
  by_cases hj : j = i
  · subst hj
    rw [if_pos rfl]
    rcases hfind : db.find? (fun b => b.id == j) with _ | b
    · rw [hfind]; rfl
    · have hb := List.find?_some hfind
      simp only [beq_iff_eq] at hb
      rw [hfind]
      simp [hb]
  · rw [if_neg hj]
    rcases hfind : db.find? (fun b => b.id == j) with _ | b
    · rw [hfind]; rfl
    · have hb := List.find?_some hfind
      simp only [beq_iff_eq] at hb
      have hne : ¬b.id = i := by rw [hb]; exact hj
      rw [hfind]
      simp [hne]

theorem docOf_mem (db : BroadcastDB) (b : BroadcastDoc)
    (hb : b ∈ db) (hnodup : (idsOf db).Nodup) :
    docOf db b.id = some b := by
  induction db with
  | nil => cases hb
  | cons a l ih =>
      rcases List.mem_cons.mp hb with rfl | hb'
      · unfold docOf
        simp [List.find?]
      · have hna : ¬a.id = b.id := by
          intro he
          have hmem : b.id ∈ l.map (·.id) := List.mem_map_of_mem _ hb'
          rw [← he] at hmem
          exact (List.nodup_cons.mp hnodup).1 hmem
        unfold docOf at ih ⊢
        simp only [List.find?]
        have hfalse : (a.id == b.id) = false := by simpa using hna
        rw [hfalse]
        exact ih hb' (List.nodup_cons.mp hnodup).2

/-! ## The three concrete update shapes -/

theorem idsOf_upd_setFilter (db : BroadcastDB) (i : ℕ) (tf : Option UserFilter) :
    idsOf (updateById db i (setFilterUpd tf)) = idsOf db :=
  idsOf_updateById db i (setFilterUpd tf) fun x => rfl

theorem idsOf_upd_setStatus (db : BroadcastDB) (i : ℕ) (s : BStatus) :
    idsOf (updateById db i (setStatusUpd s)) = idsOf db :=
  idsOf_updateById db i (setStatusUpd s) fun x => rfl

theorem idsOf_upd_complete (db : BroadcastDB) (i : ℕ) (sc fc : ℕ) :
    idsOf (updateById db i (completeUpd sc fc)) = idsOf db :=
  idsOf_updateById db i (completeUpd sc fc) fun x => rfl

theorem docOf_upd_setFilter (db : BroadcastDB) (i : ℕ) (tf : Option UserFilter)
    (j : ℕ) :
    docOf (updateById db i (setFilterUpd tf)) j =
      if j = i then (docOf db i).map (setFilterUpd tf) else docOf db j :=
  docOf_updateById db i (setFilterUpd tf) (fun x => rfl) j

theorem docOf_upd_setStatus (db : BroadcastDB) (i : ℕ) (s : BStatus) (j : ℕ) :
    docOf (updateById db i (setStatusUpd s)) j =
      if j = i then (docOf db i).map (setStatusUpd s) else docOf db j :=
  docOf_updateById db i (setStatusUpd s) (fun x => rfl) j

theorem docOf_upd_complete (db : BroadcastDB) (i : ℕ) (sc fc : ℕ) (j : ℕ) :
    docOf (updateById db i (completeUpd sc fc)) j =
      if j = i then (docOf db i).map (completeUpd sc fc) else docOf db j :=
  docOf_updateById db i (completeUpd sc fc) (fun x => rfl) j

/-! ## Effects of one due-record dispatch on the collection -/

theorem idsOf_normalizeFilter (db : BroadcastDB) (b : BroadcastDoc) :
    idsOf (normalizeFilter db b).1 = idsOf db := by
  rcases htf : b.targetFilter with _ | f
  · simp [normalizeFilter, htf]
  · simp only [normalizeFilter, htf]
    split
    · rfl
    · exact idsOf_upd_setFilter db b.id _

theorem docOf_normalizeFilter_ne (db : BroadcastDB) (b : BroadcastDoc)
    (j : ℕ) (hj : j ≠ b.id) :
    docOf (normalizeFilter db b).1 j = docOf db j := by
  rcases htf : b.targetFilter with _ | f
  · simp [normalizeFilter, htf]
  · simp only [normalizeFilter, htf]
    split
    · rfl
    · rw [docOf_upd_setFilter, if_neg hj]

theorem docOf_normalizeFilter_self (db : BroadcastDB) (b : BroadcastDoc)
    (hb : docOf db b.id = some b) :
    docOf (normalizeFilter db b).1 b.id =
      some { b with targetFilter := dispatchedFilter b } := by
  obtain ⟨bid, bmt, btf, bsched, bstat, bsc, bfc, btu⟩ := b
  dsimp only at hb ⊢
  rcases btf with _ | f
  · simpa [normalizeFilter, dispatchedFilter] using hb
  · simp only [normalizeFilter, dispatchedFilter]
    rcases hk : hasKey f "status" with _ | _
    · simp only [hk, Bool.false_eq_true, if_false]
      rw [docOf_upd_setFilter, if_pos rfl, hb]
      rfl
    · simp only [hk, if_true]
      simpa using hb

theorem idsOf_processDue (env : SchedEnv) (acc : BroadcastDB × List SchedEvent)
    (b : BroadcastDoc) :
    idsOf (processDue env acc b).1 = idsOf acc.1 := by
  rcases hd : env.dispatchFails b with _ | _
  · simp only [processDue, hd, Bool.false_eq_true, if_false]
    rw [idsOf_upd_complete, idsOf_upd_setStatus, idsOf_normalizeFilter]
  · simp only [processDue, hd, if_true]
    rw [idsOf_upd_setStatus, idsOf_upd_setStatus, idsOf_normalizeFilter]

theorem docOf_processDue_ne (env : SchedEnv) (acc : BroadcastDB × List SchedEvent)
    (b : BroadcastDoc) (j : ℕ) (hj : j ≠ b.id) :
    docOf (processDue env acc b).1 j = docOf acc.1 j := by
  rcases hd : env.dispatchFails b with _ | _
  · simp only [processDue, hd, Bool.false_eq_true, if_false]
    rw [docOf_upd_complete, if_neg hj, docOf_upd_setStatus, if_neg hj,
      docOf_normalizeFilter_ne acc.1 b j hj]
  · simp only [processDue, hd, if_true]
    rw [docOf_upd_setStatus, if_neg hj, docOf_upd_setStatus, if_neg hj,
      docOf_normalizeFilter_ne acc.1 b j hj]

theorem processDue_notSched_self (env : SchedEnv)
    (acc : BroadcastDB × List SchedEvent) (b : BroadcastDoc) :
    NotSched (processDue env acc b).1 b.id := by
  intro d hd
  rcases hdf : env.dispatchFails b with _ | _
  · simp only [processDue, hdf, Bool.false_eq_true, if_false] at hd
    rw [docOf_upd_complete, if_pos rfl] at hd
    obtain ⟨a, ha, rfl⟩ := Option.map_eq_some'.mp hd
    simp [completeUpd]
  · simp only [processDue, hdf, if_true] at hd
    rw [docOf_upd_setStatus, if_pos rfl] at hd
    obtain ⟨a, ha, rfl⟩ := Option.map_eq_some'.mp hd
    simp [setStatusUpd]

theorem docOf_processDue_self (env : SchedEnv)
    (acc : BroadcastDB × List SchedEvent) (b : BroadcastDoc)
    (hnf : env.dispatchFails b = false) (hb : docOf acc.1 b.id = some b) :
    docOf (processDue env acc b).1 b.id = some (finalizedDoc env b) := by
  simp only [processDue, hnf, Bool.false_eq_true, if_false]
  rw [docOf_upd_complete, if_pos rfl, docOf_upd_setStatus, if_pos rfl,
    docOf_normalizeFilter_self acc.1 b hb]
  rfl

/-! ## The sequential processing of all due records -/

theorem foldl_processDue_idsOf (env : SchedEnv) :
    ∀ (L : List BroadcastDoc) (acc : BroadcastDB × List SchedEvent),
      idsOf (L.foldl (processDue env) acc).1 = idsOf acc.1 := by
  intro L
  induction L with
  | nil => intro acc; rfl
  | cons a rest ih =>
      intro acc
      rw [List.foldl_cons, ih, idsOf_processDue]

theorem foldl_processDue_docOf_ne (env : SchedEnv) :
    ∀ (L : List BroadcastDoc) (acc : BroadcastDB × List SchedEvent) (j : ℕ),
      (∀ x ∈ L, x.id ≠ j) →
      docOf (L.foldl (processDue env) acc).1 j = docOf acc.1 j := by
  intro L
  induction L with
  | nil => intro acc j _; rfl
  | cons a rest ih =>
      intro acc j hx
      rw [List.foldl_cons, ih _ j (fun x hxr => hx x (List.mem_cons_of_mem a hxr)),
        docOf_processDue_ne env acc a j
          (fun he => hx a (List.mem_cons_self a rest) he.symm)]

theorem processDue_notSched_pres (env : SchedEnv)
    (acc : BroadcastDB × List SchedEvent) (b : BroadcastDoc) (j : ℕ)
    (h : NotSched acc.1 j) : NotSched (processDue env acc b).1 j := by
  rcases eq_or_ne j b.id with rfl | hne
  · exact processDue_notSched_self env acc b
  · intro d hd
    rw [docOf_processDue_ne env acc b j hne] at hd
    exact h d hd

theorem foldl_processDue_notSched_pres (env : SchedEnv) :
    ∀ (L : List BroadcastDoc) (acc : BroadcastDB × List SchedEvent) (j : ℕ),
      NotSched acc.1 j → NotSched (L.foldl (processDue env) acc).1 j := by
  intro L
  induction L with
  | nil => intro acc j h; exact h
  | cons a rest ih =>
      intro acc j h
      rw [List.foldl_cons]
      exact ih _ j (processDue_notSched_pres env acc a j h)

/-- After a tick processes a record, that record is no longer scheduled. -/
theorem foldl_processDue_notSched_mem (env : SchedEnv) :
    ∀ (L : List BroadcastDoc) (acc : BroadcastDB × List SchedEvent),
      ∀ b ∈ L, NotSched (L.foldl (processDue env) acc).1 b.id := by
  intro L
  induction L with
  | nil => intro acc b hb; cases hb
  | cons a rest ih =>
      intro acc b hb
      rcases List.mem_cons.mp hb with rfl | hb'
      · rw [List.foldl_cons]
        exact foldl_processDue_notSched_pres env rest _ b.id
          (processDue_notSched_self env acc b)
      · rw [List.foldl_cons]
        exact ih _ b hb'

/-- The dispatched record's final state after the whole fold, when its
dispatch does not raise. -/
theorem foldl_processDue_docOf_final (env : SchedEnv) :
    ∀ (L : List BroadcastDoc) (acc : BroadcastDB × List SchedEvent),
      (L.map (·.id)).Nodup →
      (∀ x ∈ L, docOf acc.1 x.id = some x) →
      ∀ b ∈ L, env.dispatchFails b = false →
        docOf (L.foldl (processDue env) acc).1 b.id = some (finalizedDoc env b) := by
  intro L
  induction L with
  | nil => intro acc _ _ b hb; cases hb
  | cons a rest ih =>
      intro acc hnodup hall b hb hnf
      rcases List.mem_cons.mp hb with rfl | hb'
      · rw [List.foldl_cons,
          foldl_processDue_docOf_ne env rest (processDue env acc b) b.id ?_]
        · exact docOf_processDue_self env acc b hnf
            (hall b (List.mem_cons_self b rest))
        · intro x hx he
          have hmem : b.id ∈ rest.map (·.id) := by
            rw [← he]
            exact List.mem_map_of_mem _ hx
          exact (List.nodup_cons.mp (by simpa using hnodup)).1 hmem
      · rw [List.foldl_cons]
        apply ih (processDue env acc a) (by simpa using
          (List.nodup_cons.mp (by simpa using hnodup)).2) ?_ b hb' hnf
        intro x hx
        have hne : x.id ≠ a.id := by
          intro he
          have hmem : a.id ∈ rest.map (·.id) := by
            rw [← he]
            exact List.mem_map_of_mem _ hx
          exact (List.nodup_cons.mp (by simpa using hnodup)).1 hmem
        rw [docOf_processDue_ne env acc a x.id hne]
        exact hall x (List.mem_cons_of_mem a hx)

/-! ## One scheduler tick -/

theorem isDue_scheduled (now : ℕ) (b : BroadcastDoc) (h : isDue now b = true) :
    b.status = .scheduled := by
  unfold isDue at h
  have := (Bool.and_eq_true _ _).mp h
  simpa using this.1

theorem tick_idsOf (env : SchedEnv) (now : ℕ) (db : BroadcastDB) :
    idsOf (check_scheduled_broadcasts env now db).1 = idsOf db := by
  unfold check_scheduled_broadcasts
  exact foldl_processDue_idsOf env _ _

theorem tick_notSched_pres (env : SchedEnv) (now : ℕ) (db : BroadcastDB)
    (j : ℕ) (h : NotSched db j) :
    NotSched (check_scheduled_broadcasts env now db).1 j := by
  unfold check_scheduled_broadcasts
  exact foldl_processDue_notSched_pres env _ _ j h

/-- A record dispatched by a tick is no longer scheduled afterwards, so the
due query of any subsequent tick cannot match it. -/
theorem tick_dispatched_notSched (env : SchedEnv) (now : ℕ) (db : BroadcastDB)
    (i : ℕ) (hi : i ∈ (check_scheduled_broadcasts env now db).2.2) :
    NotSched (check_scheduled_broadcasts env now db).1 i := by
  unfold check_scheduled_broadcasts at hi ⊢
  obtain ⟨b, hb, rfl⟩ := List.mem_map.mp hi
  exact foldl_processDue_notSched_mem env _ _ b hb

/-- A tick dispatches only records that were scheduled when it queried. -/
theorem tick_dispatched_scheduled (env : SchedEnv) (now : ℕ) (db : BroadcastDB)
    (i : ℕ) (hnodup : (idsOf db).Nodup)
    (hi : i ∈ (check_scheduled_broadcasts env now db).2.2)
    (hns : NotSched db i) : False := by
  unfold check_scheduled_broadcasts at hi
  obtain ⟨b, hb, rfl⟩ := List.mem_map.mp hi
  have hf := List.mem_filter.mp hb
  exact hns b (docOf_mem db b hf.1 hnodup) (isDue_scheduled now b hf.2)

theorem tick_ids_nodup (env : SchedEnv) (now : ℕ) (db : BroadcastDB)
    (hnodup : (idsOf db).Nodup) :
    (check_scheduled_broadcasts env now db).2.2.Nodup := by
  unfold check_scheduled_broadcasts
  exact List.Nodup.sublist (List.Sublist.map (·.id) (List.filter_sublist db)) hnodup

/-- The only write of the dispatch statistics into the record is the final
one: the dispatched record ends exactly as `finalizedDoc`. -/
theorem tick_docOf_final (env : SchedEnv) (now : ℕ) (db : BroadcastDB)
    (b : BroadcastDoc) (hnodup : (idsOf db).Nodup) (hb : b ∈ db)
    (hdue : isDue now b = true) (hnf : env.dispatchFails b = false) :
    docOf (check_scheduled_broadcasts env now db).1 b.id =
      some (finalizedDoc env b) := by
  unfold check_scheduled_broadcasts
  apply foldl_processDue_docOf_final env (db.filter (isDue now)) (db, [])
  · exact List.Nodup.sublist (List.Sublist.map (·.id) (List.filter_sublist db)) hnodup
  · intro x hx
    exact docOf_mem db x (List.mem_filter.mp hx).1 hnodup
  · exact List.mem_filter.mpr ⟨hb, hdue⟩
  · exact hnf

/-! ## Sequences of ticks -/

theorem runTicks_no_dispatch (env : SchedEnv) :
    ∀ (nows : List ℕ) (db : BroadcastDB) (i : ℕ), (idsOf db).Nodup →
      NotSched db i → i ∉ (runTicks env nows db).2 := by
  intro nows
  induction nows with
  | nil =>
      intro db i _ _ hmem
      simp [runTicks] at hmem
  | cons now rest ih =>
      intro db i hnodup hns hmem
      simp only [runTicks] at hmem
      rcases List.mem_append.mp hmem with h | h
      · exact tick_dispatched_scheduled env now db i hnodup h hns
      · have hnodup' : (idsOf (check_scheduled_broadcasts env now db).1).Nodup := by
          rw [tick_idsOf]
          exact hnodup
        exact ih _ i hnodup' (tick_notSched_pres env now db i hns) h

theorem runTicks_dispatched_nodup (env : SchedEnv) :
    ∀ (nows : List ℕ) (db : BroadcastDB), (idsOf db).Nodup →
      (runTicks env nows db).2.Nodup := by
  intro nows
  induction nows with
  | nil =>
      intro db _
      simp [runTicks]
  | cons now rest ih =>
      intro db hnodup
      simp only [runTicks]
      have hnodup' : (idsOf (check_scheduled_broadcasts env now db).1).Nodup := by
        rw [tick_idsOf]
        exact hnodup
      refine List.Nodup.append (tick_ids_nodup env now db hnodup) (ih _ hnodup') ?_
      intro a ha hmem
      exact runTicks_no_dispatch env rest _ a hnodup'
        (tick_dispatched_notSched env now db a ha) hmem

/-! ## Claim-before-dispatch ordering of the tick trace -/

theorem dispatchPreceded_nil : dispatchPreceded [] := by
  intro i n h
  simp at h

theorem dispatchPreceded_append (tr block : List SchedEvent)
    (h1 : dispatchPreceded tr)
    (h2 : ∀ i n, block.get? n = some (.dispatch i) →
      ∃ m, m < n ∧ block.get? m = some (.claim i)) :
    dispatchPreceded (tr ++ block) := by
  intro i n hn
  by_cases hlt : n < tr.length
  · rw [List.get?_append hlt] at hn
    obtain ⟨m, hm, hget⟩ := h1 i n hn
    exact ⟨m, hm, by rw [List.get?_append (lt_trans hm hlt)]; exact hget⟩
  · push_neg at hlt
    rw [List.get?_append_right hlt] at hn
    obtain ⟨m, hm, hget⟩ := h2 i (n - tr.length) hn
    refine ⟨tr.length + m, by omega, ?_⟩
    rw [List.get?_append_right (by omega)]
    have harith : tr.length + m - tr.length = m := by omega
    rw [harith]
    exact hget

theorem blockProp_base (i : ℕ) (s : BStatus) :
    ∀ j n, ([SchedEvent.claim i, SchedEvent.dispatch i,
        SchedEvent.finalize i s].get? n = some (SchedEvent.dispatch j)) →
      ∃ m, m < n ∧ ([SchedEvent.claim i, SchedEvent.dispatch i,
        SchedEvent.finalize i s].get? m = some (SchedEvent.claim j)) := by
  intro j n hn
  match n with
  | 0 => simp at hn
  | 1 =>
      simp at hn
      exact ⟨0, by omega, by simp [hn]⟩
  | 2 => simp at hn
  | (n + 3) => simp at hn

theorem blockProp_withFilter (i' i : ℕ) (s : BStatus) :
    ∀ j n, ([SchedEvent.writeFilter i', SchedEvent.claim i,
        SchedEvent.dispatch i, SchedEvent.finalize i s].get? n =
          some (SchedEvent.dispatch j)) →
      ∃ m, m < n ∧ ([SchedEvent.writeFilter i', SchedEvent.claim i,
        SchedEvent.dispatch i, SchedEvent.finalize i s].get? m =
          some (SchedEvent.claim j)) := by
  intro j n hn
  match n with
  | 0 => simp at hn
  | 1 => simp at hn
  | 2 =>
      simp at hn
      exact ⟨1, by omega, by simp [hn]⟩
  | 3 => simp at hn
  | (n + 4) => simp at hn

theorem processDue_trace_dp (env : SchedEnv) (acc : BroadcastDB × List SchedEvent)
    (b : BroadcastDoc) (h : dispatchPreceded acc.2) :
    dispatchPreceded (processDue env acc b).2 := by
  rcases hd : env.dispatchFails b with _ | _
  · simp only [processDue, hd, Bool.false_eq_true, if_false]
    rcases htf : b.targetFilter with _ | f
    · simp only [normalizeFilter, htf, List.nil_append]
      exact dispatchPreceded_append _ _ h (blockProp_base b.id .completed)
    · rcases hk : hasKey f "status" with _ | _
      · simp only [normalizeFilter, htf, hk, Bool.false_eq_true, if_false,
          List.cons_append, List.nil_append]
        exact dispatchPreceded_append _ _ h (blockProp_withFilter b.id b.id .completed)
      · simp only [normalizeFilter, htf, hk, if_true, List.nil_append]
        exact dispatchPreceded_append _ _ h (blockProp_base b.id .completed)
  · simp only [processDue, hd, if_true]
    rcases htf : b.targetFilter with _ | f
    · simp only [normalizeFilter, htf, List.nil_append]
      exact dispatchPreceded_append _ _ h (blockProp_base b.id .error)
    · rcases hk : hasKey f "status" with _ | _
      · simp only [normalizeFilter, htf, hk, Bool.false_eq_true, if_false,
          List.cons_append, List.nil_append]
        exact dispatchPreceded_append _ _ h (blockProp_withFilter b.id b.id .error)
      · simp only [normalizeFilter, htf, hk, if_true, List.nil_append]
        exact dispatchPreceded_append _ _ h (blockProp_base b.id .error)

theorem foldl_processDue_dp (env : SchedEnv) :
    ∀ (L : List BroadcastDoc) (acc : BroadcastDB × List SchedEvent),
      dispatchPreceded acc.2 →
      dispatchPreceded (L.foldl (processDue env) acc).2 := by
  intro L
  induction L with
  | nil => intro acc h; exact h
  | cons a rest ih =>
      intro acc h
      rw [List.foldl_cons]
      exact ih _ (processDue_trace_dp env acc a h)

theorem tick_dp (env : SchedEnv) (now : ℕ) (db : BroadcastDB) :
    dispatchPreceded (check_scheduled_broadcasts env now db).2.1 := by
  unfold check_scheduled_broadcasts
  exact foldl_processDue_dp env _ _ dispatchPreceded_nil

/-! ## C6 — claim-before-dispatch and at-most-once processing -/

/-- C6: in every tick's trace each dispatch of a record is preceded by the
claim write (`status := in_progress`) for the same record; a tick
dispatches only records that were in status `scheduled`, and afterwards the
dispatched record is no longer scheduled, so the due query of any later
tick cannot match it — across any sequence of ticks every record id is
dispatched at most once. -/
theorem c6_claim_then_dispatch_at_most_once (env : SchedEnv) (db : BroadcastDB)
    (nows : List ℕ) (hnodup : (idsOf db).Nodup) :
    (∀ now, dispatchPreceded (check_scheduled_broadcasts env now db).2.1) ∧
    (∀ now i, i ∈ (check_scheduled_broadcasts env now db).2.2 →
      ∃ b ∈ db, b.id = i ∧ b.status = .scheduled ∧
        NotSched (check_scheduled_broadcasts env now db).1 i) ∧
    (runTicks env nows db).2.Nodup := by
  refine ⟨fun now => tick_dp env now db, ?_,
    runTicks_dispatched_nodup env nows db hnodup⟩
  intro now i hi
  have hi' := hi
  unfold check_scheduled_broadcasts at hi'
  obtain ⟨b, hb, rfl⟩ := List.mem_map.mp hi'
  have hf := List.mem_filter.mp hb
  exact ⟨b, hf.1, rfl, isDue_scheduled now b hf.2,
    tick_dispatched_notSched env now db b.id hi⟩

/-- Witness for C6 on a one-record collection and two ticks. -/
theorem c6_claim_then_dispatch_at_most_once_witness :
    (idsOf [sampleScheduledDoc]).Nodup ∧
    ((∀ now, dispatchPreceded
        (check_scheduled_broadcasts sampleEnv now [sampleScheduledDoc]).2.1) ∧
      (∀ now i, i ∈ (check_scheduled_broadcasts sampleEnv now
          [sampleScheduledDoc]).2.2 →
        ∃ b ∈ [sampleScheduledDoc], b.id = i ∧ b.status = .scheduled ∧
          NotSched (check_scheduled_broadcasts sampleEnv now
            [sampleScheduledDoc]).1 i) ∧
      (runTicks sampleEnv [100, 200] [sampleScheduledDoc]).2.Nodup) :=
  ⟨by decide,
   c6_claim_then_dispatch_at_most_once sampleEnv [sampleScheduledDoc]
     [100, 200] (by decide)⟩

/-! ## C2 — incremental persistence of the counters -/

/-- C2 counterexample: with `save_to_db=False` — exactly how the scheduler
invokes the batch sender — a per-recipient success increments only the
local counter and no stored record: after processing one recipient the run
holds no record handle, a whole scheduler-path run exposes no record, and
the scheduler's own record receives its counters only in the single final
completed-write (here 2 at once), never one by one. -/
theorem c2_counterexample :
    (processUser false 25 (initSendState none) sampleUserX).sentCount = 1 ∧
    (processUser false 25 (initSendState none) sampleUserX).record = none ∧
    (send_broadcast [sampleUserX, sampleUserX2] "m"
        (some [("source", "X"), ("status", "active")]) false (some 25)
        (some 3)).record = none ∧
    (check_scheduled_broadcasts sampleEnv 100 [sampleScheduledDoc]).1.map
        (fun b => (b.sentCount, b.failedCount, b.status)) =
      [(2, 0, BStatus.completed)] := by
  decide

/-- C2 (amended): for immediate broadcasts persisted with `save_to_db=True`
each recipient with a truthy user id bumps exactly one persisted counter
before the next recipient, so at every mid-run point the persisted counters
equal the truthy-id recipients processed so far; a scheduler-dispatched
broadcast runs with `save_to_db=False`, whose per-recipient step touches no
record at all and whose whole run exposes no record — the scheduler's
record gets its counters once, in the final completed-write, from the
returned statistics. -/
theorem c2_amended_incremental_persistence :
    (∀ (bs : ℕ) (users : List PyUser) (st : SendState) (k : ℕ),
      st.record.isSome = true →
      dbTotal ((users.take k).foldl (processUser true bs) st) =
        dbTotal st + ((users.take k).filter fun u => !pyFalsy u.userId).length) ∧
    (∀ (bs : ℕ) (st : SendState) (u : PyUser),
      (processUser false bs st u).record = st.record) ∧
    (∀ (store : List PyUser) (mt : String) (tf : Option UserFilter)
        (bsz bdz : Option ℕ),
      (send_broadcast store mt tf false bsz bdz).record = none) ∧
    (∀ (env : SchedEnv) (now : ℕ) (db : BroadcastDB) (b : BroadcastDoc),
      (idsOf db).Nodup → b ∈ db → isDue now b = true →
      env.dispatchFails b = false →
      docOf (check_scheduled_broadcasts env now db).1 b.id =
        some (finalizedDoc env b)) := by
  refine ⟨?_, ?_, ?_, ?_⟩
  · intro bs users st k h
    exact foldl_processUser_dbTotal bs (users.take k) st h
  · intro bs st u
    exact processUser_record_false bs st u
  · intro store mt tf bsz bdz
    exact send_broadcast_record_none store mt tf bsz bdz
  · intro env now db b h1 h2 h3 h4
    exact tick_docOf_final env now db b h1 h2 h3 h4

/-- Witness for C2 (amended) at concrete inputs. -/
theorem c2_amended_incremental_persistence_witness :
    ((initSendState (some (freshBroadcastDoc "m" none 1))).record.isSome = true ∧
      dbTotal (([sampleUserX].take 1).foldl (processUser true 25)
          (initSendState (some (freshBroadcastDoc "m" none 1)))) =
        dbTotal (initSendState (some (freshBroadcastDoc "m" none 1))) +
          (([sampleUserX].take 1).filter fun u => !pyFalsy u.userId).length) ∧
    ((idsOf [sampleScheduledDoc]).Nodup ∧
      sampleScheduledDoc ∈ [sampleScheduledDoc] ∧
      isDue 100 sampleScheduledDoc = true ∧
      sampleEnv.dispatchFails sampleScheduledDoc = false ∧
      docOf (check_scheduled_broadcasts sampleEnv 100 [sampleScheduledDoc]).1
          sampleScheduledDoc.id = some (finalizedDoc sampleEnv sampleScheduledDoc)) :=
  ⟨⟨by decide,
    c2_amended_incremental_persistence.1 25 [sampleUserX]
      (initSendState (some (freshBroadcastDoc "m" none 1))) 1 (by decide)⟩,
   ⟨by decide, by decide, by decide, rfl,
    c2_amended_incremental_persistence.2.2.2 sampleEnv 100 [sampleScheduledDoc]
      sampleScheduledDoc (by decide) (by decide) (by decide) rfl⟩⟩

/-! ## C3 — `sent + failed` against the snapshotted total -/

/-- C3 counterexample: (i) an immediate persisted run over one recipient
lacking a `user_id` completes with persisted `sent + failed = 0` while the
snapshotted total is 1; (ii) a scheduled record whose snapshotted total is
1 while two recipients match at dispatch time completes with
`sent_count + failed_count = 2 > 1 = total_users`, violating both the
equality and the `≤` bound against the snapshot. -/
theorem c3_counterexample :
    ((send_broadcast [sampleUserNoId] "m" none true none none).record.map
        fun r => (r.status, r.sentCount + r.failedCount, r.totalUsers)) =
      some (BStatus.completed, 0, 1) ∧
    ((check_scheduled_broadcasts sampleEnv 100 [sampleStaleDoc]).1.map
        fun b => (b.status, b.sentCount + b.failedCount, b.totalUsers)) =
      [(BStatus.completed, 2, 1)] ∧
    (0 : ℕ) ≠ 1 ∧ ¬((2 : ℕ) ≤ 1) := by
  decide

/-- C3 (amended): the returned statistics always satisfy
`sent + failed = total`; an immediate persisted run's completed record
satisfies `sent + failed ≤ total` always and `sent + failed = total`
whenever every resolved recipient has a truthy user id; mid-run the
persisted counters never exceed the snapshot; a scheduler-dispatched
record's final counters sum to the recipient count recomputed at dispatch
time, while its stored `total_users` keeps the scheduling-time snapshot —
the two agree only when the matching population is unchanged. -/
theorem c3_amended_completion_totals :
    (∀ (store : List PyUser) (mt : String) (tf : Option UserFilter) (s : Bool)
        (bsz bdz : Option ℕ),
      (send_broadcast store mt tf s bsz bdz).stats.sent +
          (send_broadcast store mt tf s bsz bdz).stats.failed =
        (send_broadcast store mt tf s bsz bdz).stats.total) ∧
    (∀ (store : List PyUser) (mt : String) (tf : Option UserFilter)
        (bsz bdz : Option ℕ) (r : BroadcastDoc),
      (send_broadcast store mt tf true bsz bdz).record = some r →
      r.status = .completed ∧ r.sentCount + r.failedCount ≤ r.totalUsers ∧
      r.totalUsers = (resolveRecipients store tf).length ∧
      ((∀ u ∈ resolveRecipients store tf, pyFalsy u.userId = false) →
        r.sentCount + r.failedCount = r.totalUsers)) ∧
    (∀ (bs : ℕ) (mt : String) (tf : Option UserFilter) (users : List PyUser)
        (k : ℕ),
      dbTotal ((users.take k).foldl (processUser true bs)
          (initSendState (some (freshBroadcastDoc mt tf users.length)))) ≤
        users.length) ∧
    (∀ (env : SchedEnv) (now : ℕ) (db : BroadcastDB) (b : BroadcastDoc),
      (idsOf db).Nodup → b ∈ db → isDue now b = true →
      env.dispatchFails b = false →
      docOf (check_scheduled_broadcasts env now db).1 b.id =
          some (finalizedDoc env b) ∧
        (finalizedDoc env b).sentCount + (finalizedDoc env b).failedCount =
          (resolveRecipients env.store (dispatchedFilter b)).length ∧
        (finalizedDoc env b).totalUsers = b.totalUsers) := by
  refine ⟨send_broadcast_stats_sum, ?_, ?_, ?_⟩
  · intro store mt tf bsz bdz r h
    rcases hemp : (resolveRecipients store tf).isEmpty with _ | _
    · obtain ⟨r', hr', hst, htot, hsum⟩ :=
        send_broadcast_record_some store mt tf bsz bdz hemp
      rw [h] at hr'
      obtain rfl := (Option.some_inj.mp hr').symm
      refine ⟨hst, ?_, htot, ?_⟩
      · rw [hsum, htot]
        exact List.length_filter_le _ _
      · intro hall
        rw [hsum, htot]
        congr 1
        apply List.filter_eq_self.mpr
        intro u hu
        simp [hall u hu]
    · have hnone : (send_broadcast store mt tf true bsz bdz).record = none := by
        simp [send_broadcast, hemp]
      rw [h] at hnone
      cases hnone
  · intro bs mt tf users k
    have h := foldl_processUser_dbTotal bs (users.take k)
      (initSendState (some (freshBroadcastDoc mt tf users.length))) (by rfl)
    rw [h]
    have h0 : dbTotal (initSendState (some (freshBroadcastDoc mt tf
        users.length))) = 0 := by
      simp [initSendState, dbTotal, recTotal, freshBroadcastDoc]
    rw [h0]
    have h1 : (((users.take k).filter fun u => !pyFalsy u.userId)).length ≤
        (users.take k).length := List.length_filter_le _ _
    have h2 : (users.take k).length ≤ users.length := by
      rw [List.length_take]
      exact Nat.min_le_right _ _
    omega
  · intro env now db b h1 h2 h3 h4
    refine ⟨tick_docOf_final env now db b h1 h2 h3 h4, ?_, rfl⟩
    show (dispatchStats env b).sent + (dispatchStats env b).failed =
      (resolveRecipients env.store (dispatchedFilter b)).length
    unfold dispatchStats
    rw [send_broadcast_stats_sum, send_broadcast_stats_total]

/-- Witness for C3 (amended) at concrete inputs. -/
theorem c3_amended_completion_totals_witness :
    ((send_broadcast [sampleUserX] "m" none true none none).record =
        some { id := 0, messageText := "m", targetFilter := none,
               scheduleTime := none, status := BStatus.completed,
               sentCount := 1, failedCount := 0, totalUsers := 1 } ∧
      ({ id := 0, messageText := "m", targetFilter := none,
         scheduleTime := none, status := BStatus.completed,
         sentCount := 1, failedCount := 0,
         totalUsers := 1 } : BroadcastDoc).status = BStatus.completed) ∧
    ((idsOf [sampleScheduledDoc]).Nodup ∧
      (finalizedDoc sampleEnv sampleScheduledDoc).sentCount +
          (finalizedDoc sampleEnv sampleScheduledDoc).failedCount =
        (resolveRecipients sampleEnv.store
          (dispatchedFilter sampleScheduledDoc)).length) :=
  ⟨⟨by decide,
    (c3_amended_completion_totals.2.1 [sampleUserX] "m" none none none
      { id := 0, messageText := "m", targetFilter := none, scheduleTime := none,
        status := BStatus.completed, sentCount := 1, failedCount := 0,
        totalUsers := 1 } (by decide)).1⟩,
   ⟨by decide,
    (c3_amended_completion_totals.2.2.2 sampleEnv 100 [sampleScheduledDoc]
      sampleScheduledDoc (by decide) (by decide) (by decide) rfl).2.1⟩⟩

end ArcticBot
